import Mathlib

/-!
Verification of the echoes-io/tracker data-access layer.

The development shallow-embeds the two core subsystems of the repository:

* the migration runner (`src/migrations/index.ts`): migration units, the
  `_migrations` ledger, per-unit transactions, discovery of migration files
  by filename convention;
* the five-table content hierarchy, in its three schema variants found in
  the source:
  - the keyed (simplified surrogate) variant of `src/lib/tracker.ts` with the
    `001_initial` schema declaring `onDelete('cascade')` foreign keys;
  - the full surrogate variant (join-based `Tracker` class) over the tables
    of `src/lib/database.ts`;
  - the composite natural-key variant (`Tracker` class addressing rows by
    timelineName/arcName/episodeNumber/number) with its `001_initial`
    schema of composite primary keys and cascading composite foreign keys.

Modelling conventions, fixed once for the whole file:

* A SQL table is a `List` of row structures; the generated
  `created_at`/`updated_at` timestamp columns are store-assigned and exempt
  from every claim, so they are omitted from the row structures.
* A JavaScript `Date` is represented by its ISO string (`toISOString` and
  `new Date(iso)` are mutually inverse on valid dates, so both are the
  identity on this representation).
* A nullable column is an `Option`; a partial (Zod `.partial()`-validated)
  payload is a structure of `Option` fields where `none` means the key is
  absent from the payload.  Kysely drops object entries whose value is
  `undefined` from `set(...)`/`values(...)` objects, so an absent payload
  key never touches its column; this is reflected by `Option.getD`.
* The JavaScript coercions appearing in the read paths are modelled
  explicitly: `x || ''` is `jsOrEmpty`, `x || undefined` is `jsOrUndef`
  (it coerces the empty string to absent), `x || 0` is `jsOrZero`, and
  `x ?? undefined` is the identity on `Option`.
* `ON DELETE CASCADE` semantics of the store: deleting parent rows deletes
  every child row whose (non-null) foreign-key reference is among the
  deleted parents' keys, transitively down the declared foreign-key graph.
-/

/-! ## Generic list machinery: the `ORDER BY` sort -/

/-- Insert `a` into `l`, keeping elements with a strictly smaller key in
front; building block of the `ORDER BY` model. -/
def insertByKey (key : α → Nat) (a : α) : List α → List α
  | [] => [a]
  | b :: l => if key a < key b then a :: b :: l else b :: insertByKey key a l

/-- Model of `ORDER BY key ASC`: a stable insertion sort on a `Nat` key.
SQL leaves the order among equal keys unspecified; any fixed order is a
faithful refinement. -/
def sortByKey (key : α → Nat) : List α → List α
  | [] => []
  | a :: l => insertByKey key a (sortByKey key l)

theorem mem_insertByKey (key : α → Nat) (a x : α) (l : List α) :
    x ∈ insertByKey key a l ↔ x = a ∨ x ∈ l := by
  induction l with
  | nil => simp [insertByKey]
  | cons b l ih =>
    by_cases h : key a < key b
    · simp [insertByKey, h]
    · simp only [insertByKey, if_neg h, List.mem_cons, ih]
      tauto

theorem mem_sortByKey (key : α → Nat) (x : α) (l : List α) :
    x ∈ sortByKey key l ↔ x ∈ l := by
  induction l with
  | nil => simp [sortByKey]
  | cons a l ih => simp [sortByKey, mem_insertByKey, ih]

theorem sorted_insertByKey (key : α → Nat) (a : α) (l : List α)
    (h : l.Pairwise (fun x y => key x ≤ key y)) :
    (insertByKey key a l).Pairwise (fun x y => key x ≤ key y) := by
  induction l with
  | nil => simp [insertByKey]
  | cons b l ih =>
    rcases List.pairwise_cons.mp h with ⟨hb, hl⟩
    by_cases hab : key a < key b
    · rw [insertByKey, if_pos hab]
      refine List.pairwise_cons.mpr ⟨?_, h⟩
      intro x hx
      rcases List.mem_cons.mp hx with rfl | hx
      · exact Nat.le_of_lt hab
      · exact Nat.le_trans (Nat.le_of_lt hab) (hb x hx)
    · rw [insertByKey, if_neg hab]
      refine List.pairwise_cons.mpr ⟨?_, ih hl⟩
      intro x hx
      rcases (mem_insertByKey key a x l).mp hx with rfl | hx
      · exact Nat.le_of_not_lt hab
      · exact hb x hx

theorem sorted_sortByKey (key : α → Nat) (l : List α) :
    (sortByKey key l).Pairwise (fun x y => key x ≤ key y) := by
  induction l with
  | nil => simp [sortByKey]
  | cons a l ih => exact sorted_insertByKey key a _ ih

/-! ## Generic cascade-delete step

One level of `ON DELETE CASCADE`: the parents satisfying `cond` are deleted,
and every child whose reference is among the deleted parents' keys is
deleted with them.  `surviving_child_has_surviving_parent` is the single
fact each level of the hierarchy needs: a surviving child's parent (which
existed by the foreign-key invariant) also survives. -/

theorem surviving_child_has_surviving_parent {β κ : Type} [DecidableEq κ]
    (parents : List β) (cond : β → Bool) (key : β → κ) (r : κ)
    (hres : ∃ p ∈ parents, r = key p)
    (hnot : r ∉ (parents.filter cond).map key) :
    ∃ p ∈ parents.filter (fun x => !cond x), r = key p := by
  rcases hres with ⟨p, hp, rfl⟩
  refine ⟨p, List.mem_filter.mpr ⟨hp, ?_⟩, rfl⟩
  by_contra hc
  exact hnot (List.mem_map.mpr ⟨p, List.mem_filter.mpr ⟨hp, by
    cases h : cond p with
    | true => rfl
    | false => exact absurd (by simp [h]) hc⟩, rfl⟩)

/-! ## Migration runner (`src/migrations/index.ts`, `src/unnamed/part_005`)

A migration unit's `up` receives a transaction handle and runs a sequence
of statements; each statement either transforms the schema/data state `σ`
or throws an error `ε`.  The persistent database state (`MigState`) is the
schema/data state together with the `_migrations` ledger (the list of rows
of the ledger table; `getExecutedMigrations` reads it as a set, so only
membership matters).  `ensureMigrationsTable` guarantees the ledger exists;
a fresh database has ledger `[]`. -/

/-- One statement executed inside a migration's `up`: it either transforms
the schema/data state or throws. -/
def Stmt (σ ε : Type) : Type := σ → Except ε σ

/-- A migration unit: a name (`XXX_description`) and the statement sequence
of its `up` function.  (`down` is never invoked by the runner.) -/
structure Migration (σ ε : Type) where
  name : String
  up : List (Stmt σ ε)

/-- Persistent database state: schema/data state plus the `_migrations`
ledger contents. -/
structure MigState (σ : Type) where
  schema : σ
  ledger : List String

/-- Run the statements of an `up` body in order on a transaction; the first
throwing statement aborts the rest. -/
def runStmts : List (Stmt σ ε) → σ → Except ε σ
  | [], s => .ok s
  | st :: rest, s =>
    match st s with
    | .error e => .error e
    | .ok s' => runStmts rest s'

/-- The migration runner's loop (`migrate` in `src/migrations/index.ts`):
for each unit in order, skip it if its name is in the ledger; otherwise run
its `up` and the ledger `INSERT` inside one transaction.  If any statement
throws, the transaction rolls back (the persistent state is untouched by
the failed unit) and the error propagates, aborting the remaining units.
The result is the persistent state together with the propagated error, if
any. -/
def migrate : List (Migration σ ε) → MigState σ → MigState σ × Option ε
  | [], s => (s, none)
  | m :: rest, s =>
    if m.name ∈ s.ledger then
      migrate rest s
    else
      match runStmts m.up s.schema with
      | .error e => (s, some e)
      | .ok sch => migrate rest ⟨sch, s.ledger ++ [m.name]⟩

/-- The units of a sequence that the ledger does not yet record. -/
def pendingOf (ms : List (Migration σ ε)) (led : List String) :
    List (Migration σ ε) :=
  ms.filter (fun m => decide (m.name ∉ led))

/-- Run the `up` bodies of a unit sequence on the schema state alone, in
order, stopping at the first failure. -/
def applySeq : List (Migration σ ε) → σ → Except ε σ
  | [], sch => .ok sch
  | m :: rest, sch =>
    match runStmts m.up sch with
    | .error e => .error e
    | .ok sch' => applySeq rest sch'

/-- Executable suffix test on strings (via their character lists). -/
def strEndsWith (s suffix : String) : Bool := List.isSuffixOf suffix.data s.data

/-- Executable initial-segment test on strings (via their character
lists). -/
def strStartsWith (s p : String) : Bool := List.isPrefixOf p.data s.data

/-- The filename filter of `loadMigrations`: matches
`/^\d{3}_.*\.(?:ts|js)$/`, excluding `.d.ts` files and files starting with
`index.`. -/
def isMigrationFile (f : String) : Bool :=
  match f.data with
  | c1 :: c2 :: c3 :: c4 :: _ =>
    c1.isDigit && c2.isDigit && c3.isDigit && c4 == '_' &&
      (strEndsWith f ".ts" || strEndsWith f ".js") &&
      !strEndsWith f ".d.ts" && !strStartsWith f "index."
  | _ => false

/-- `file.replace(/\.(ts|js)$/, '')`: the unit name is the filename without
its three-character extension. -/
def stripExt (f : String) : String :=
  if strEndsWith f ".ts" || strEndsWith f ".js" then
    String.mk (f.data.take (f.data.length - 3))
  else f

/-- Executable lexicographic comparison on character lists (the comparison
underlying the JavaScript default string sort). -/
def charListLt : List Char → List Char → Bool
  | [], [] => false
  | [], _ :: _ => true
  | _ :: _, [] => false
  | a :: as, b :: bs =>
    if a < b then true else if b < a then false else charListLt as bs

/-- Executable lexicographic order on strings. -/
def strLt (a b : String) : Bool := charListLt a.data b.data

/-- Stable insertion on a `String` key; building block of the model of the
JavaScript `Array.prototype.sort()` (stable, lexicographic on strings). -/
def insertByStr (key : α → String) (a : α) : List α → List α
  | [] => [a]
  | b :: l => if strLt (key a) (key b) then a :: b :: l else b :: insertByStr key a l

/-- Model of `files.sort()`: a stable sort, lexicographic on a `String`
key. -/
def sortByStr (key : α → String) : List α → List α
  | [] => []
  | a :: l => insertByStr key a (sortByStr key l)

/-- `loadMigrations`: given the directory listing (filename paired with the
module's `up` statement sequence), sort the filenames (`files.sort()`),
keep the matching migration files, and name each unit by its filename
without extension.  The iteration order of the resulting `Map` is this
insertion order. -/
def loadMigrations (files : List (String × List (Stmt σ ε))) :
    List (Migration σ ε) :=
  (((sortByStr (fun f => f.1) files)).filter
      (fun f => isMigrationFile f.1)).map
    (fun f => ⟨stripExt f.1, f.2⟩)

/-! ### Runner lemmas -/

/-- The ledger only grows: anything recorded before a run is still recorded
after it, whether or not the run fails. -/
theorem migrate_ledger_mono (ms : List (Migration σ ε)) (s : MigState σ)
    (x : String) (hx : x ∈ s.ledger) : x ∈ (migrate ms s).1.ledger := by
  induction ms generalizing s with
  | nil => exact hx
  | cons m rest ih =>
    by_cases hm : m.name ∈ s.ledger
    · simpa [migrate, hm] using ih s hx
    · simp only [migrate, if_neg hm]
      cases h : runStmts m.up s.schema with
      | error e => exact hx
      | ok sch => exact ih ⟨sch, s.ledger ++ [m.name]⟩ (List.mem_append_left _ hx)

/-- After a successful run every unit of the sequence is recorded in the
ledger. -/
theorem migrate_covers (ms : List (Migration σ ε)) (s : MigState σ)
    (s1 : MigState σ) (h : migrate ms s = (s1, none)) :
    ∀ m ∈ ms, m.name ∈ s1.ledger := by
  induction ms generalizing s with
  | nil => simp
  | cons m rest ih =>
    intro m' hm'
    by_cases hm : m.name ∈ s.ledger
    · rw [migrate, if_pos hm] at h
      rcases List.mem_cons.mp hm' with rfl | hmem
      · have := migrate_ledger_mono rest s m'.name hm
        rwa [h] at this
      · exact ih s h m' hmem
    · rw [migrate, if_neg hm] at h
      revert h
      cases hr : runStmts m.up s.schema with
      | error e =>
        intro h
        exact absurd (congrArg Prod.snd h) (by simp)
      | ok sch =>
        intro h
        have h2 : migrate rest ⟨sch, s.ledger ++ [m.name]⟩ = (s1, none) := h
        rcases List.mem_cons.mp hm' with rfl | hmem
        · have hin : m'.name ∈ (MigState.mk sch (s.ledger ++ [m'.name])).ledger := by
            simp
          have hmono := migrate_ledger_mono rest _ m'.name hin
          rwa [h2] at hmono
        · exact ih _ h2 m' hmem

/-- If every unit of the sequence is already recorded, the run changes
nothing and applies zero units. -/
theorem migrate_all_recorded (ms : List (Migration σ ε)) (s : MigState σ)
    (h : ∀ m ∈ ms, m.name ∈ s.ledger) : migrate ms s = (s, none) := by
  induction ms with
  | nil => rfl
  | cons m rest ih =>
    have hm : m.name ∈ s.ledger := h m (List.mem_cons_self m rest)
    rw [migrate, if_pos hm]
    exact ih fun m' hm' => h m' (List.mem_cons_of_mem m hm')

/-- A run never records a name twice: it preserves ledger distinctness
(every applied unit is appended only because it was not yet recorded). -/
theorem migrate_ledger_nodup (ms : List (Migration σ ε)) (s : MigState σ)
    (h : s.ledger.Nodup) : (migrate ms s).1.ledger.Nodup := by
  induction ms generalizing s with
  | nil => exact h
  | cons m rest ih =>
    by_cases hm : m.name ∈ s.ledger
    · simpa [migrate, hm] using ih s h
    · simp only [migrate, if_neg hm]
      cases hr : runStmts m.up s.schema with
      | error e => exact h
      | ok sch =>
        refine ih ⟨sch, s.ledger ++ [m.name]⟩ ?_
        simpa [List.nodup_append] using ⟨h, fun hx => hm hx⟩

/-- Running a skip-free prefix and then the rest is the same as running the
concatenation, when the prefix succeeds. -/
theorem migrate_append_ok (xs ys : List (Migration σ ε)) (s s1 : MigState σ)
    (h : migrate xs s = (s1, none)) :
    migrate (xs ++ ys) s = migrate ys s1 := by
  induction xs generalizing s with
  | nil =>
    have hs : s = s1 := congrArg Prod.fst h
    simpa [migrate] using congrArg (migrate ys) hs
  | cons m rest ih =>
    by_cases hm : m.name ∈ s.ledger
    · rw [migrate, if_pos hm] at h
      rw [List.cons_append, migrate, if_pos hm]
      exact ih s h
    · rw [migrate, if_neg hm] at h
      rw [List.cons_append, migrate, if_neg hm]
      revert h
      cases hr : runStmts m.up s.schema with
      | error e =>
        intro h
        exact absurd (congrArg Prod.snd h) (by simp)
      | ok sch =>
        intro h
        exact ih ⟨sch, s.ledger ++ [m.name]⟩ h

/-- `pendingOf` ignores ledger entries that name no unit of the
sequence. -/
theorem pendingOf_append_irrelevant (ms : List (Migration σ ε))
    (led : List String) (n : String)
    (hn : n ∉ ms.map Migration.name) :
    pendingOf ms (led ++ [n]) = pendingOf ms led := by
  unfold pendingOf
  refine List.filter_congr ?_
  intro m hm
  have hne : m.name ≠ n := by
    intro he
    exact hn (List.mem_map.mpr ⟨m, hm, he⟩)
  simp [List.mem_append, hne]

/-- Core accounting of a successful run: the ledger gains exactly the names
of the pending units, in sequence order, and the final schema state is the
one obtained by running exactly those units' `up` bodies in that order
(each ledger insert is committed in the same transaction as its unit's
schema change). -/
theorem migrate_accounting (ms : List (Migration σ ε)) (s s1 : MigState σ)
    (hnodup : (ms.map Migration.name).Nodup)
    (h : migrate ms s = (s1, none)) :
    s1.ledger = s.ledger ++ (pendingOf ms s.ledger).map Migration.name ∧
    applySeq (pendingOf ms s.ledger) s.schema = .ok s1.schema := by
  induction ms generalizing s with
  | nil =>
    have hs : s = s1 := congrArg Prod.fst h
    subst hs
    exact ⟨by simp [pendingOf], by simp [pendingOf, applySeq]⟩
  | cons m rest ih =>
    have hnr : (rest.map Migration.name).Nodup := (List.nodup_cons.mp hnodup).2
    have hnm : m.name ∉ rest.map Migration.name := (List.nodup_cons.mp hnodup).1
    by_cases hm : m.name ∈ s.ledger
    · rw [migrate, if_pos hm] at h
      have hpend : pendingOf (m :: rest) s.ledger = pendingOf rest s.ledger := by
        simp [pendingOf, List.filter_cons, hm]
      rw [hpend]
      exact ih s hnr h
    · rw [migrate, if_neg hm] at h
      have hpend : pendingOf (m :: rest) s.ledger = m :: pendingOf rest s.ledger := by
        simp [pendingOf, List.filter_cons, hm]
      revert h
      cases hr : runStmts m.up s.schema with
      | error e =>
        intro h
        exact absurd (congrArg Prod.snd h) (by simp)
      | ok sch =>
        intro h
        have h2 : migrate rest ⟨sch, s.ledger ++ [m.name]⟩ = (s1, none) := h
        rcases ih ⟨sch, s.ledger ++ [m.name]⟩ hnr h2 with ⟨hled, happ⟩
        rw [pendingOf_append_irrelevant rest s.ledger m.name hnm] at hled happ
        constructor
        · rw [hpend, hled]
          simp
        · rw [hpend, applySeq, hr]
          exact happ

/-! ### Claim theorems for the migration runner -/

/-- Claim C1: for every migration sequence with unique ascending names,
running the runner twice in succession yields the same applied-set after
the first run as after the second — the second run applies zero units
(state and result unchanged, no error), and no unit name is ever
successfully applied more than once (the ledger stays duplicate-free). -/
theorem migrate_twice_idempotent (ms : List (Migration σ ε))
    (s s1 : MigState σ)
    (hasc : ((ms.map Migration.name)).Sorted (· < ·))
    (hled : s.ledger.Nodup)
    (h1 : migrate ms s = (s1, none)) :
    migrate ms s1 = (s1, none) ∧ s1.ledger.Nodup := by
  refine ⟨migrate_all_recorded ms s1 (migrate_covers ms s s1 h1), ?_⟩
  have hnd := migrate_ledger_nodup ms s hled
  rwa [h1] at hnd

/-- Demonstration migration units over a concrete schema state (a log of
applied schema actions) and a concrete error type. -/
def demoMig1 : Migration (List String) String :=
  ⟨"001_initial", [fun sch => .ok (sch ++ ["001"])]⟩

def demoMig2 : Migration (List String) String :=
  ⟨"002_rename_excerpt_to_summary", [fun sch => .ok (sch ++ ["002"])]⟩

def demoMigs : List (Migration (List String) String) := [demoMig1, demoMig2]

/-- The state reached by running `demoMigs` on a fresh database. -/
def demoS1 : MigState (List String) :=
  ⟨["001", "002"], ["001_initial", "002_rename_excerpt_to_summary"]⟩

/-- The demonstration unit names, in ascending order. -/
theorem demoMigs_names_sorted :
    ((demoMigs.map Migration.name)).Sorted (· < ·) := by
  simp only [demoMigs, demoMig1, demoMig2, List.map, List.sorted_cons,
    List.mem_singleton, forall_eq, List.sorted_singleton, and_true]
  refine ⟨String.lt_iff_toList_lt.mpr ?_, by simp, by simp⟩
  decide

/-- Witness for C1 at a concrete two-unit sequence on a fresh database. -/
theorem migrate_twice_idempotent_witness :
    (((demoMigs.map Migration.name)).Sorted (· < ·) ∧
      ([] : List String).Nodup ∧
      migrate demoMigs ⟨[], []⟩ = (demoS1, none)) ∧
    (migrate demoMigs demoS1 = (demoS1, none) ∧ demoS1.ledger.Nodup) :=
  ⟨⟨demoMigs_names_sorted, by decide, rfl⟩,
    migrate_twice_idempotent demoMigs ⟨[], []⟩ demoS1 demoMigs_names_sorted
      (by decide) rfl⟩

/-- Claim C2: when a run fails, the failing unit's transaction rolled back
in full: the final persistent state is exactly the state produced by the
successfully committed prefix of units (so no schema change of the failing
unit survives), the ledger has no record for the failing unit, every
earlier unit of the prefix is recorded, and the failing unit's `up` is
what raised the error from that prefix state. -/
theorem migrate_unit_rollback (ms : List (Migration σ ε))
    (s s' : MigState σ) (e : ε)
    (h : migrate ms s = (s', some e)) :
    ∃ k, ∃ hk : k < ms.length,
      (ms.get ⟨k, hk⟩).name ∉ s'.ledger ∧
      runStmts (ms.get ⟨k, hk⟩).up s'.schema = .error e ∧
      migrate (ms.take k) s = (s', none) ∧
      ∀ m ∈ ms.take k, m.name ∈ s'.ledger := by
  induction ms generalizing s with
  | nil => exact absurd (congrArg Prod.snd h) (by simp [migrate])
  | cons m rest ih =>
    by_cases hm : m.name ∈ s.ledger
    · rw [migrate, if_pos hm] at h
      rcases ih s h with ⟨k, hk, hname, hfail, hpre, hrec⟩
      refine ⟨k + 1, by simpa using Nat.succ_lt_succ hk, ?_, ?_, ?_, ?_⟩
      · simpa using hname
      · simpa using hfail
      · rw [List.take_succ_cons, migrate, if_pos hm]
        exact hpre
      · intro m' hm'
        rcases List.mem_cons.mp (by simpa [List.take_succ_cons] using hm') with rfl | hmem
        · have := migrate_ledger_mono (rest.take k) s m'.name hm
          rwa [hpre] at this
        · exact hrec m' hmem
    · rw [migrate, if_neg hm] at h
      revert h
      cases hr : runStmts m.up s.schema with
      | error e' =>
        intro h
        have he : e' = e := by
          have := congrArg Prod.snd h
          simpa using this
        have hs : s = s' := congrArg Prod.fst h
        subst he
        subst hs
        exact ⟨0, by simp, hm, hr, rfl, by simp⟩
      | ok sch =>
        intro h
        have h2 : migrate rest ⟨sch, s.ledger ++ [m.name]⟩ = (s', some e) := h
        rcases ih ⟨sch, s.ledger ++ [m.name]⟩ h2 with ⟨k, hk, hname, hfail, hpre, hrec⟩
        refine ⟨k + 1, by simpa using Nat.succ_lt_succ hk, ?_, ?_, ?_, ?_⟩
        · simpa using hname
        · simpa using hfail
        · rw [List.take_succ_cons, migrate, if_neg hm, hr]
          exact hpre
        · intro m' hm'
          rcases List.mem_cons.mp (by simpa [List.take_succ_cons] using hm') with rfl | hmem
          · have hin : m'.name ∈ (MigState.mk sch (s.ledger ++ [m'.name])).ledger := by
              simp
            have := migrate_ledger_mono (rest.take k) _ m'.name hin
            rwa [hpre] at this
          · exact hrec m' hmem

/-- A unit whose `up` succeeds on its first statement and throws on its
second. -/
def demoFailMig : Migration (List String) String :=
  ⟨"002_convert_date_format",
    [fun sch => .ok (sch ++ ["002-step1"]), fun _ => .error "boom"]⟩

/-- Witness for C2: a unit throwing on its second statement leaves the
persistent state exactly as the first unit committed it — no `002-step1`
schema action and no `002_convert_date_format` ledger row survive, while
`001_initial` remains recorded. -/
theorem migrate_unit_rollback_witness :
    migrate [demoMig1, demoFailMig] ⟨[], []⟩ =
      (⟨["001"], ["001_initial"]⟩, some "boom") ∧
    (∃ k, ∃ hk : k < ([demoMig1, demoFailMig].length),
      (([demoMig1, demoFailMig].get ⟨k, hk⟩)).name ∉
        (MigState.mk ["001"] ["001_initial"] : MigState (List String)).ledger ∧
      runStmts (([demoMig1, demoFailMig].get ⟨k, hk⟩)).up
        (MigState.mk ["001"] ["001_initial"] : MigState (List String)).schema =
          .error "boom" ∧
      migrate ([demoMig1, demoFailMig].take k) ⟨[], []⟩ =
        (⟨["001"], ["001_initial"]⟩, none) ∧
      ∀ m ∈ [demoMig1, demoFailMig].take k,
        m.name ∈ (MigState.mk ["001"] ["001_initial"] :
          MigState (List String)).ledger) :=
  ⟨rfl, migrate_unit_rollback [demoMig1, demoFailMig] ⟨[], []⟩ _ "boom" rfl⟩

/-- Claim C3: if a unit's `up` fails, the runner stops immediately — no
unit after it (whatever the tail of the sequence is) is attempted or
applied, the state stays exactly the one committed by the earlier units,
and the underlying error propagates to the caller of `migrate`. -/
theorem migrate_fail_fast (pre post : List (Migration σ ε))
    (m : Migration σ ε) (s s1 : MigState σ) (e : ε)
    (hpre : migrate pre s = (s1, none))
    (hnotin : m.name ∉ s1.ledger)
    (hfail : runStmts m.up s1.schema = .error e) :
    migrate (pre ++ m :: post) s = (s1, some e) := by
  rw [migrate_append_ok pre (m :: post) s s1 hpre, migrate, if_neg hnotin, hfail]

/-- A unit after the failing one; it would append `003` if it ever ran. -/
def demoMig3 : Migration (List String) String :=
  ⟨"003_extra", [fun sch => .ok (sch ++ ["003"])]⟩

/-- Witness for C3: with `001_initial` committed, a failing `002` unit
aborts the run before `003_extra`, leaving only `001` applied and
propagating the underlying error. -/
theorem migrate_fail_fast_witness :
    migrate [demoMig1] ⟨[], []⟩ = (⟨["001"], ["001_initial"]⟩, none) ∧
    "002_convert_date_format" ∉
      (MigState.mk ["001"] ["001_initial"] : MigState (List String)).ledger ∧
    runStmts demoFailMig.up
      (MigState.mk ["001"] ["001_initial"] : MigState (List String)).schema =
        .error "boom" ∧
    migrate ([demoMig1] ++ demoFailMig :: [demoMig3]) ⟨[], []⟩ =
      (⟨["001"], ["001_initial"]⟩, some "boom") :=
  ⟨rfl, by decide, rfl,
    migrate_fail_fast [demoMig1] [demoMig3] demoFailMig ⟨[], []⟩
      ⟨["001"], ["001_initial"]⟩ "boom" rfl (by decide) rfl⟩

/-- Claim C4: for a successful run over the discovered sequence
(`loadMigrations`: numeric-prefix filenames sorted ascending, with the
discovered names strictly ascending), the pending units are applied
strictly in ascending name order — the ledger gains exactly the pending
names in that order — and the final schema is obtained by running exactly
those units' `up` bodies in that order, i.e. each unit's ledger row is
committed together with that unit's schema change and with nothing else
(never in a separate transaction). -/
theorem migrate_applies_pending_in_order
    (files : List (String × List (Stmt σ ε))) (ms : List (Migration σ ε))
    (s s1 : MigState σ)
    (hms : ms = loadMigrations files)
    (hasc : ((ms.map Migration.name)).Sorted (· < ·))
    (h : migrate ms s = (s1, none)) :
    List.Sorted (· < ·) ((pendingOf ms s.ledger).map Migration.name) ∧
    s1.ledger = s.ledger ++ (pendingOf ms s.ledger).map Migration.name ∧
    applySeq (pendingOf ms s.ledger) s.schema = .ok s1.schema := by
  have hnodup : (ms.map Migration.name).Nodup :=
    hasc.imp (fun hlt => ne_of_lt hlt)
  have hsub : List.Sublist ((pendingOf ms s.ledger).map Migration.name)
      (ms.map Migration.name) :=
    List.Sublist.map Migration.name (List.filter_sublist ms)
  rcases migrate_accounting ms s s1 hnodup h with ⟨h1, h2⟩
  exact ⟨List.Pairwise.sublist hsub hasc, h1, h2⟩

/-- A concrete migrations directory listing: out of order, with an
`index.ts`, a `.d.ts` declaration file and a stray file, each to be
ignored by discovery. -/
def demoFiles : List (String × List (Stmt (List String) String)) :=
  [("002_rename_excerpt_to_summary.ts", [fun sch => .ok (sch ++ ["002"])]),
   ("index.ts", []),
   ("001_initial.d.ts", []),
   ("README.md", []),
   ("001_initial.ts", [fun sch => .ok (sch ++ ["001"])])]

/-- Discovery on the demonstration listing yields names in ascending
order. -/
theorem demoLoaded_names_sorted :
    (((loadMigrations demoFiles).map Migration.name)).Sorted (· < ·) := by
  have he : (loadMigrations demoFiles).map Migration.name =
      ["001_initial", "002_rename_excerpt_to_summary"] := rfl
  rw [he]
  simp only [List.sorted_cons, List.mem_singleton, forall_eq,
    List.sorted_singleton, and_true]
  refine ⟨String.lt_iff_toList_lt.mpr ?_, by simp, by simp⟩
  decide

/-- Witness for C4 on the concrete directory listing: discovery yields the
two real units in ascending order and a fresh-database run applies both,
recording them in order with the matching schema actions. -/
theorem migrate_applies_pending_in_order_witness :
    (loadMigrations demoFiles = loadMigrations demoFiles ∧
      (((loadMigrations demoFiles).map Migration.name)).Sorted (· < ·) ∧
      migrate (loadMigrations demoFiles) ⟨[], []⟩ = (demoS1, none)) ∧
    (List.Sorted (· < ·)
        ((pendingOf (loadMigrations demoFiles) ([] : List String)).map
          Migration.name) ∧
      demoS1.ledger =
        ([] : List String) ++
          ((pendingOf (loadMigrations demoFiles) ([] : List String)).map
            Migration.name) ∧
      applySeq (pendingOf (loadMigrations demoFiles) ([] : List String))
          ([] : List String) = .ok demoS1.schema) :=
  ⟨⟨rfl, demoLoaded_names_sorted, rfl⟩,
    migrate_applies_pending_in_order demoFiles (loadMigrations demoFiles)
      ⟨[], []⟩ demoS1 rfl demoLoaded_names_sorted rfl⟩

/-! ## Keyed variant: the simplified surrogate schema

Tables of the `001_initial` migration declaring integer primary keys,
`onDelete('cascade')` foreign keys on every parent link (nullable on both
chapter links), and the operations of the `Tracker` class in
`src/lib/tracker.ts` (which sorts arcs by their `order` column). -/

namespace Keyed

structure TimelineRow where
  id : Nat
  name : String
  title : String
  description : Option String
deriving DecidableEq

structure ArcRow where
  id : Nat
  timeline_id : Nat
  name : String
  title : String
  description : Option String
  order : Nat
deriving DecidableEq

structure EpisodeRow where
  id : Nat
  arc_id : Nat
  number : Nat
  title : String
  description : Option String
deriving DecidableEq

structure PartRow where
  id : Nat
  episode_id : Nat
  number : Nat
  title : String
  description : Option String
deriving DecidableEq

structure ChapterRow where
  id : Nat
  episode_id : Option Nat
  part_id : Option Nat
  number : Nat
  title : String
  content : String
  word_count : Nat
  character_count : Nat
deriving DecidableEq

structure Db where
  timelines : List TimelineRow
  arcs : List ArcRow
  episodes : List EpisodeRow
  parts : List PartRow
  chapters : List ChapterRow
deriving DecidableEq

/-- `getArcs(timelineId)`: `SELECT * FROM arc WHERE timeline_id = ? ORDER BY
"order"`. -/
def getArcs (db : Db) (timelineId : Nat) : List ArcRow :=
  sortByKey ArcRow.order (db.arcs.filter (fun a => a.timeline_id == timelineId))

/-- The ids of the timeline rows deleted by `deleteTimeline(n)`. -/
def delTimelineIds (db : Db) (n : String) : List Nat :=
  (db.timelines.filter (fun t => t.name == n)).map TimelineRow.id

/-- The ids of the arc rows cascaded away by `deleteTimeline(n)`. -/
def delArcIds (db : Db) (n : String) : List Nat :=
  (db.arcs.filter (fun a => decide (a.timeline_id ∈ delTimelineIds db n))).map
    ArcRow.id

/-- The ids of the episode rows cascaded away by `deleteTimeline(n)`. -/
def delEpisodeIds (db : Db) (n : String) : List Nat :=
  (db.episodes.filter (fun e => decide (e.arc_id ∈ delArcIds db n))).map
    EpisodeRow.id

/-- The ids of the part rows cascaded away by `deleteTimeline(n)`. -/
def delPartIds (db : Db) (n : String) : List Nat :=
  (db.parts.filter (fun p => decide (p.episode_id ∈ delEpisodeIds db n))).map
    PartRow.id

/-- A nullable foreign-key reference hits a deleted parent (a `NULL`
reference never cascades). -/
def optHit (r : Option Nat) (dead : List Nat) : Bool :=
  match r with
  | none => false
  | some x => decide (x ∈ dead)

/-- `deleteTimeline(n)` with the store's declared `ON DELETE CASCADE`
semantics: the timeline rows named `n` disappear, and so do — level by
level down the declared foreign-key graph — the arcs referencing them, the
episodes referencing those arcs, the parts referencing those episodes and
the chapters referencing a deleted episode or a deleted part. -/
def deleteTimeline (db : Db) (n : String) : Db :=
  { timelines := db.timelines.filter (fun t => !(t.name == n)),
    arcs := db.arcs.filter (fun a => !(decide (a.timeline_id ∈ delTimelineIds db n))),
    episodes := db.episodes.filter (fun e => !(decide (e.arc_id ∈ delArcIds db n))),
    parts := db.parts.filter (fun p => !(decide (p.episode_id ∈ delEpisodeIds db n))),
    chapters := db.chapters.filter (fun c =>
      !(optHit c.episode_id (delEpisodeIds db n) || optHit c.part_id (delPartIds db n))) }

/-- Referential integrity: every (non-null) foreign-key reference resolves
to an existing parent row. -/
def Consistent (db : Db) : Prop :=
  (∀ a ∈ db.arcs, ∃ t ∈ db.timelines, a.timeline_id = t.id) ∧
  (∀ e ∈ db.episodes, ∃ a ∈ db.arcs, e.arc_id = a.id) ∧
  (∀ p ∈ db.parts, ∃ e ∈ db.episodes, p.episode_id = e.id) ∧
  (∀ c ∈ db.chapters,
    (match c.episode_id with
     | none => True
     | some eid => ∃ e ∈ db.episodes, eid = e.id) ∧
    (match c.part_id with
     | none => True
     | some pid => ∃ p ∈ db.parts, pid = p.id))

/-- The arc descends from a timeline named `n`. -/
def ArcUnder (db : Db) (n : String) (a : ArcRow) : Prop :=
  ∃ t ∈ db.timelines, t.name = n ∧ a.timeline_id = t.id

/-- The episode descends from a timeline named `n`. -/
def EpisodeUnder (db : Db) (n : String) (e : EpisodeRow) : Prop :=
  ∃ a ∈ db.arcs, ArcUnder db n a ∧ e.arc_id = a.id

/-- The part descends from a timeline named `n`. -/
def PartUnder (db : Db) (n : String) (p : PartRow) : Prop :=
  ∃ e ∈ db.episodes, EpisodeUnder db n e ∧ p.episode_id = e.id

/-- The chapter descends from a timeline named `n` (through its episode or
through its part). -/
def ChapterUnder (db : Db) (n : String) (c : ChapterRow) : Prop :=
  (∃ e ∈ db.episodes, EpisodeUnder db n e ∧ c.episode_id = some e.id) ∨
  (∃ p ∈ db.parts, PartUnder db n p ∧ c.part_id = some p.id)

theorem arcUnder_hit (db : Db) (n : String) (a : ArcRow)
    (h : ArcUnder db n a) : a.timeline_id ∈ delTimelineIds db n := by
  rcases h with ⟨t, ht, hname, hid⟩
  exact List.mem_map.mpr ⟨t, List.mem_filter.mpr ⟨ht, by simp [hname]⟩, hid.symm⟩

theorem episodeUnder_hit (db : Db) (n : String) (e : EpisodeRow)
    (ha : ∃ a ∈ db.arcs, ArcUnder db n a ∧ e.arc_id = a.id) :
    e.arc_id ∈ delArcIds db n := by
  rcases ha with ⟨a, haa, hu, hid⟩
  exact List.mem_map.mpr
    ⟨a, List.mem_filter.mpr ⟨haa, by simp [arcUnder_hit db n a hu]⟩, hid.symm⟩

theorem partUnder_hit (db : Db) (n : String) (p : PartRow)
    (hp : ∃ e ∈ db.episodes, EpisodeUnder db n e ∧ p.episode_id = e.id) :
    p.episode_id ∈ delEpisodeIds db n := by
  rcases hp with ⟨e, hee, hu, hid⟩
  exact List.mem_map.mpr
    ⟨e, List.mem_filter.mpr ⟨hee, by simp [episodeUnder_hit db n e hu]⟩, hid.symm⟩

end Keyed

namespace Keyed

/-- Cascade correctness of `deleteTimeline` in the keyed variant: no
timeline named `n` survives, no descendant row at any of the four lower
levels survives, and the surviving database is still orphan-free. -/
theorem delete_timeline_cascades (db : Db) (n : String) (hdb : Consistent db) :
    (∀ t ∈ (deleteTimeline db n).timelines, t.name ≠ n) ∧
    (∀ a ∈ db.arcs, ArcUnder db n a → a ∉ (deleteTimeline db n).arcs) ∧
    (∀ e ∈ db.episodes, EpisodeUnder db n e → e ∉ (deleteTimeline db n).episodes) ∧
    (∀ p ∈ db.parts, PartUnder db n p → p ∉ (deleteTimeline db n).parts) ∧
    (∀ c ∈ db.chapters, ChapterUnder db n c → c ∉ (deleteTimeline db n).chapters) ∧
    Consistent (deleteTimeline db n) := by
  obtain ⟨hA, hE, hP, hC⟩ := hdb
  refine ⟨?_, ?_, ?_, ?_, ?_, ?_, ?_, ?_, ?_⟩
  · intro t ht
    have := (List.mem_filter.mp ht).2
    simpa using this
  · intro a ha hu hmem
    have h2 := (List.mem_filter.mp hmem).2
    have : a.timeline_id ∉ delTimelineIds db n := by simpa using h2
    exact this (arcUnder_hit db n a hu)
  · intro e he hu hmem
    have h2 := (List.mem_filter.mp hmem).2
    have : e.arc_id ∉ delArcIds db n := by simpa using h2
    rcases hu with ⟨a, haa, hau, hid⟩
    exact this (episodeUnder_hit db n e ⟨a, haa, hau, hid⟩)
  · intro p hp hu hmem
    have h2 := (List.mem_filter.mp hmem).2
    have : p.episode_id ∉ delEpisodeIds db n := by simpa using h2
    rcases hu with ⟨e, hee, heu, hid⟩
    exact this (partUnder_hit db n p ⟨e, hee, heu, hid⟩)
  · intro c hc hu hmem
    have h2 := (List.mem_filter.mp hmem).2
    have hsplit : optHit c.episode_id (delEpisodeIds db n) = false ∧
        optHit c.part_id (delPartIds db n) = false := by
      constructor
      · cases he : optHit c.episode_id (delEpisodeIds db n) with
        | false => rfl
        | true => rw [he] at h2; simp at h2
      · cases he : optHit c.part_id (delPartIds db n) with
        | false => rfl
        | true => rw [he] at h2; simp at h2
    rcases hu with ⟨e, hee, heu, hid⟩ | ⟨p, hpp, hpu, hid⟩
    · have hein : e.id ∈ delEpisodeIds db n := by
        rcases heu with ⟨a, haa, hau, haid⟩
        exact List.mem_map.mpr
          ⟨e, List.mem_filter.mpr ⟨hee, by
            simp [episodeUnder_hit db n e ⟨a, haa, hau, haid⟩]⟩, rfl⟩
      have : optHit c.episode_id (delEpisodeIds db n) = true := by
        rw [hid]; simpa [optHit] using hein
      rw [this] at hsplit
      exact absurd hsplit.1 (by simp)
    · have hpin : p.id ∈ delPartIds db n := by
        rcases hpu with ⟨e, hee, heu, heid⟩
        exact List.mem_map.mpr
          ⟨p, List.mem_filter.mpr ⟨hpp, by
            simp [partUnder_hit db n p ⟨e, hee, heu, heid⟩]⟩, rfl⟩
      have : optHit c.part_id (delPartIds db n) = true := by
        rw [hid]; simpa [optHit] using hpin
      rw [this] at hsplit
      exact absurd hsplit.2 (by simp)
  · intro a ha
    have h1 := (List.mem_filter.mp ha).1
    have h2 := (List.mem_filter.mp ha).2
    have hnot : a.timeline_id ∉ delTimelineIds db n := by simpa using h2
    exact surviving_child_has_surviving_parent db.timelines
      (fun t => t.name == n) TimelineRow.id a.timeline_id (hA a h1) hnot
  · intro e he
    have h1 := (List.mem_filter.mp he).1
    have h2 := (List.mem_filter.mp he).2
    have hnot : e.arc_id ∉ delArcIds db n := by simpa using h2
    exact surviving_child_has_surviving_parent db.arcs
      (fun a => decide (a.timeline_id ∈ delTimelineIds db n)) ArcRow.id
      e.arc_id (hE e h1) hnot
  · intro p hp
    have h1 := (List.mem_filter.mp hp).1
    have h2 := (List.mem_filter.mp hp).2
    have hnot : p.episode_id ∉ delEpisodeIds db n := by simpa using h2
    exact surviving_child_has_surviving_parent db.episodes
      (fun e => decide (e.arc_id ∈ delArcIds db n)) EpisodeRow.id
      p.episode_id (hP p h1) hnot
  · intro c hc
    have h1 := (List.mem_filter.mp hc).1
    have h2 := (List.mem_filter.mp hc).2
    have hsplit : optHit c.episode_id (delEpisodeIds db n) = false ∧
        optHit c.part_id (delPartIds db n) = false := by
      constructor
      · cases he : optHit c.episode_id (delEpisodeIds db n) with
        | false => rfl
        | true => rw [he] at h2; simp at h2
      · cases he : optHit c.part_id (delPartIds db n) with
        | false => rfl
        | true => rw [he] at h2; simp at h2
    constructor
    · cases heid : c.episode_id with
      | none => trivial
      | some eid =>
        have hnot : eid ∉ delEpisodeIds db n := by
          have := hsplit.1
          rw [heid] at this
          simpa [optHit] using this
        have hres := (hC c h1).1
        rw [heid] at hres
        exact surviving_child_has_surviving_parent db.episodes
          (fun e => decide (e.arc_id ∈ delArcIds db n)) EpisodeRow.id
          eid hres hnot
    · cases hpid : c.part_id with
      | none => trivial
      | some pid =>
        have hnot : pid ∉ delPartIds db n := by
          have := hsplit.2
          rw [hpid] at this
          simpa [optHit] using this
        have hres := (hC c h1).2
        rw [hpid] at hres
        exact surviving_child_has_surviving_parent db.parts
          (fun p => decide (p.episode_id ∈ delEpisodeIds db n)) PartRow.id
          pid hres hnot

end Keyed

/-! ## JavaScript coercions and the `UPDATE ... WHERE` helper -/

/-- `x || ''` on a nullable string column (`''` is falsy, so the result is
the stored string, with `NULL` replaced by `''`). -/
def jsOrEmpty (v : Option String) : String :=
  match v with
  | none => ""
  | some s => s

/-- `x || undefined` on a nullable string column: `NULL` stays absent and a
stored empty string — being falsy — is also coerced to absent. -/
def jsOrUndef (v : Option String) : Option String :=
  match v with
  | none => none
  | some s => if s = "" then none else some s

/-- `x || 0` on a nullable number column: `NULL` becomes `0` (and a stored
`0` stays `0`). -/
def jsOrZero (v : Option Nat) : Nat :=
  match v with
  | none => 0
  | some k => k

/-- `UPDATE ... SET g WHERE q`: rewrite every matching row in place. -/
def updateWhere (q : α → Bool) (g : α → α) (l : List α) : List α :=
  l.map (fun r => if q r then g r else r)

theorem find?_map_invariant (pred : α → Bool) (g : α → α) (l : List α)
    (hinv : ∀ a, pred (g a) = pred a) :
    (l.map g).find? pred = (l.find? pred).map g := by
  induction l with
  | nil => rfl
  | cons a l ih =>
    by_cases ha : pred a
    · rw [List.map_cons, List.find?_cons_of_pos _ (by rw [hinv]; exact ha),
        List.find?_cons_of_pos _ ha]
      rfl
    · rw [List.map_cons, List.find?_cons_of_neg _ (by rw [hinv]; simpa using ha),
        List.find?_cons_of_neg _ ha]
      exact ih

/-- Reading back through the matching predicate after an update that
preserves it: the first match is the patched first match. -/
theorem find?_updateWhere (q : α → Bool) (g : α → α) (l : List α)
    (hpres : ∀ a, q a = true → q (g a) = true) (r : α)
    (hfind : l.find? q = some r) :
    (updateWhere q g l).find? q = some (g r) := by
  have hinv : ∀ a, q (if q a then g a else a) = q a := by
    intro a
    by_cases ha : q a
    · simp [ha, hpres a ha]
    · simp [ha]
  have := find?_map_invariant q (fun r => if q r then g r else r) l hinv
  rw [updateWhere, this, hfind]
  have hq : q r = true := List.find?_some hfind
  simp [hq]

/-! ## The `@echoes-io/models` record types

The Zod-validated records exchanged through the `Tracker` API, shared by
both `Tracker` variants, and their `Partial<...>` payloads (an `Option`
field is `none` when the key is absent from the payload — Zod's
`.partial()` omits absent keys and Kysely drops `undefined`-valued
entries, so both cases leave the column untouched). -/

namespace Models

structure Timeline where
  name : String
  description : String
deriving DecidableEq

structure Arc where
  timelineName : String
  name : String
  number : Nat
  description : String
deriving DecidableEq

structure Episode where
  timelineName : String
  arcName : String
  number : Nat
  slug : String
  title : String
  description : String
deriving DecidableEq

structure Part where
  timelineName : String
  arcName : String
  episodeNumber : Nat
  number : Nat
  slug : String
  title : String
  description : String
deriving DecidableEq

structure Chapter where
  timelineName : String
  arcName : String
  episodeNumber : Nat
  partNumber : Nat
  number : Nat
  pov : String
  title : String
  date : String
  excerpt : String
  location : String
  outfit : Option String
  kink : Option String
  words : Nat
  characters : Nat
  charactersNoSpaces : Nat
  paragraphs : Nat
  sentences : Nat
  readingTimeMinutes : Nat
deriving DecidableEq

structure TimelinePatch where
  name : Option String := none
  description : Option String := none

structure ArcPatch where
  timelineName : Option String := none
  name : Option String := none
  number : Option Nat := none
  description : Option String := none

structure EpisodePatch where
  timelineName : Option String := none
  arcName : Option String := none
  number : Option Nat := none
  slug : Option String := none
  title : Option String := none
  description : Option String := none

structure PartPatch where
  timelineName : Option String := none
  arcName : Option String := none
  episodeNumber : Option Nat := none
  number : Option Nat := none
  slug : Option String := none
  title : Option String := none
  description : Option String := none

/-- `Partial<Chapter>`: `outfit`/`kink` are doubly optional — `some none`
is a key present with an explicitly absent value (`undefined`), which the
code turns into a stored `NULL`. -/
structure ChapterPatch where
  timelineName : Option String := none
  arcName : Option String := none
  episodeNumber : Option Nat := none
  partNumber : Option Nat := none
  number : Option Nat := none
  pov : Option String := none
  title : Option String := none
  date : Option String := none
  excerpt : Option String := none
  location : Option String := none
  outfit : Option (Option String) := none
  kink : Option (Option String) := none
  words : Option Nat := none
  characters : Option Nat := none
  charactersNoSpaces : Option Nat := none
  paragraphs : Option Nat := none
  sentences : Option Nat := none
  readingTimeMinutes : Option Nat := none

end Models

/-- Patch application on a nullable column: a present payload value is
stored as-is, an absent key leaves the stored value (possibly `NULL`). -/
def setNullable (pv : Option String) (old : Option String) : Option String :=
  match pv with
  | some v => some v
  | none => old

/-! ## Composite natural-key variant

The `Tracker` class addressing every row by human-readable ancestor
identifiers, over the composite-primary-key schema (each table keyed by
the tuple of ancestor names/numbers, composite foreign keys declared with
`onDelete('cascade')`). -/

namespace Composite

structure TimelineRow where
  name : String
  description : Option String
deriving DecidableEq

structure ArcRow where
  timelineName : String
  name : String
  number : Nat
  description : Option String
deriving DecidableEq

structure EpisodeRow where
  timelineName : String
  arcName : String
  number : Nat
  slug : String
  title : String
  description : Option String
deriving DecidableEq

structure PartRow where
  timelineName : String
  arcName : String
  episodeNumber : Nat
  number : Nat
  slug : String
  title : String
  description : Option String
deriving DecidableEq

structure ChapterRow where
  timelineName : String
  arcName : String
  episodeNumber : Nat
  partNumber : Nat
  number : Nat
  pov : String
  title : String
  date : String
  excerpt : String
  location : String
  outfit : Option String
  kink : Option String
  words : Nat
  characters : Nat
  charactersNoSpaces : Nat
  paragraphs : Nat
  sentences : Nat
  readingTimeMinutes : Nat
deriving DecidableEq

structure Db where
  timelines : List TimelineRow
  arcs : List ArcRow
  episodes : List EpisodeRow
  parts : List PartRow
  chapters : List ChapterRow
deriving DecidableEq

/-! ### `WHERE` predicates on the natural keys -/

def tlKey (n : String) (t : TimelineRow) : Bool := t.name == n

def arcKey (tn an : String) (a : ArcRow) : Bool :=
  a.timelineName == tn && a.name == an

def epKey (tn an : String) (en : Nat) (e : EpisodeRow) : Bool :=
  e.timelineName == tn && e.arcName == an && e.number == en

def partKey (tn an : String) (en pn : Nat) (p : PartRow) : Bool :=
  p.timelineName == tn && p.arcName == an && p.episodeNumber == en &&
    p.number == pn

def chKey (tn an : String) (en cn : Nat) (c : ChapterRow) : Bool :=
  c.timelineName == tn && c.arcName == an && c.episodeNumber == en &&
    c.number == cn

/-! ### Read paths -/

def timelineToApi (t : TimelineRow) : Models.Timeline :=
  ⟨t.name, jsOrEmpty t.description⟩

def getTimeline (db : Db) (n : String) : Option Models.Timeline :=
  (db.timelines.find? (tlKey n)).map timelineToApi

def arcToApi (a : ArcRow) : Models.Arc :=
  ⟨a.timelineName, a.name, a.number, jsOrEmpty a.description⟩

/-- `getArcs`: `SELECT * FROM arc WHERE timelineName = ? ORDER BY number`. -/
def getArcs (db : Db) (tn : String) : List Models.Arc :=
  (sortByKey ArcRow.number
    (db.arcs.filter (fun a => a.timelineName == tn))).map arcToApi

def getArc (db : Db) (tn an : String) : Option Models.Arc :=
  (db.arcs.find? (arcKey tn an)).map arcToApi

def episodeToApi (e : EpisodeRow) : Models.Episode :=
  ⟨e.timelineName, e.arcName, e.number, e.slug, e.title, jsOrEmpty e.description⟩

/-- `getEpisodes`: filter by timeline and arc, `ORDER BY number`. -/
def getEpisodes (db : Db) (tn an : String) : List Models.Episode :=
  (sortByKey EpisodeRow.number
    (db.episodes.filter (fun e => e.timelineName == tn && e.arcName == an))).map
    episodeToApi

def getEpisode (db : Db) (tn an : String) (en : Nat) : Option Models.Episode :=
  (db.episodes.find? (epKey tn an en)).map episodeToApi

def partToApi (p : PartRow) : Models.Part :=
  ⟨p.timelineName, p.arcName, p.episodeNumber, p.number, p.slug, p.title,
    jsOrEmpty p.description⟩

/-- `getParts`: filter by timeline, arc and episode, `ORDER BY number`. -/
def getParts (db : Db) (tn an : String) (en : Nat) : List Models.Part :=
  (sortByKey PartRow.number
    (db.parts.filter (fun p =>
      p.timelineName == tn && p.arcName == an && p.episodeNumber == en))).map
    partToApi

def getPart (db : Db) (tn an : String) (en pn : Nat) : Option Models.Part :=
  (db.parts.find? (partKey tn an en pn)).map partToApi

/-- Rehydration of a chapter row: every column is returned as stored
(`outfit`/`kink` via `?? undefined`, which keeps `NULL` distinct from the
empty string; the stored ISO date through `new Date`). -/
def chapterToApi (c : ChapterRow) : Models.Chapter :=
  ⟨c.timelineName, c.arcName, c.episodeNumber, c.partNumber, c.number,
    c.pov, c.title, c.date, c.excerpt, c.location, c.outfit, c.kink,
    c.words, c.characters, c.charactersNoSpaces, c.paragraphs, c.sentences,
    c.readingTimeMinutes⟩

/-- `getChapters`: filter by timeline, arc and episode, optionally by part
number, `ORDER BY number`. -/
def getChapters (db : Db) (tn an : String) (en : Nat) (pn : Option Nat) :
    List Models.Chapter :=
  (sortByKey ChapterRow.number
    (db.chapters.filter (fun c =>
      c.timelineName == tn && c.arcName == an && c.episodeNumber == en &&
        (match pn with
         | none => true
         | some k => c.partNumber == k)))).map chapterToApi

def getChapter (db : Db) (tn an : String) (en cn : Nat) :
    Option Models.Chapter :=
  (db.chapters.find? (chKey tn an en cn)).map chapterToApi

/-! ### Create paths (`INSERT INTO ... VALUES (...)`) -/

def createTimeline (db : Db) (x : Models.Timeline) : Db :=
  { db with timelines := db.timelines ++ [⟨x.name, some x.description⟩] }

def createArc (db : Db) (x : Models.Arc) : Db :=
  { db with arcs :=
      db.arcs ++ [⟨x.timelineName, x.name, x.number, some x.description⟩] }

def createEpisode (db : Db) (x : Models.Episode) : Db :=
  { db with episodes :=
      db.episodes ++
        [⟨x.timelineName, x.arcName, x.number, x.slug, x.title,
          some x.description⟩] }

def createPart (db : Db) (x : Models.Part) : Db :=
  { db with parts :=
      db.parts ++
        [⟨x.timelineName, x.arcName, x.episodeNumber, x.number, x.slug,
          x.title, some x.description⟩] }

/-- The row inserted by `createChapter`: the validated record spread into
columns, `date` as its ISO string, `outfit`/`kink` via `?? null` (an
absent optional is stored as an explicit `NULL`). -/
def chapterRowOf (x : Models.Chapter) : ChapterRow :=
  ⟨x.timelineName, x.arcName, x.episodeNumber, x.partNumber, x.number,
    x.pov, x.title, x.date, x.excerpt, x.location, x.outfit, x.kink,
    x.words, x.characters, x.charactersNoSpaces, x.paragraphs, x.sentences,
    x.readingTimeMinutes⟩

def createChapter (db : Db) (x : Models.Chapter) : Db :=
  { db with chapters := db.chapters ++ [chapterRowOf x] }

/-! ### Update paths (`UPDATE ... SET validated WHERE key`)

Each `updateX` passes the validated partial payload to `set(...)`; only
the keys present in the payload become `SET` columns. -/

def applyTimelinePatch (p : Models.TimelinePatch) (t : TimelineRow) :
    TimelineRow :=
  ⟨p.name.getD t.name, setNullable p.description t.description⟩

def updateTimeline (db : Db) (n : String) (p : Models.TimelinePatch) : Db :=
  { db with timelines := updateWhere (tlKey n) (applyTimelinePatch p) db.timelines }

def applyArcPatch (p : Models.ArcPatch) (a : ArcRow) : ArcRow :=
  ⟨p.timelineName.getD a.timelineName, p.name.getD a.name,
    p.number.getD a.number, setNullable p.description a.description⟩

def updateArc (db : Db) (tn an : String) (p : Models.ArcPatch) : Db :=
  { db with arcs := updateWhere (arcKey tn an) (applyArcPatch p) db.arcs }

def applyEpisodePatch (p : Models.EpisodePatch) (e : EpisodeRow) : EpisodeRow :=
  ⟨p.timelineName.getD e.timelineName, p.arcName.getD e.arcName,
    p.number.getD e.number, p.slug.getD e.slug, p.title.getD e.title,
    setNullable p.description e.description⟩

def updateEpisode (db : Db) (tn an : String) (en : Nat)
    (p : Models.EpisodePatch) : Db :=
  { db with episodes := updateWhere (epKey tn an en) (applyEpisodePatch p) db.episodes }

def applyPartPatch (p : Models.PartPatch) (r : PartRow) : PartRow :=
  ⟨p.timelineName.getD r.timelineName, p.arcName.getD r.arcName,
    p.episodeNumber.getD r.episodeNumber, p.number.getD r.number,
    p.slug.getD r.slug, p.title.getD r.title,
    setNullable p.description r.description⟩

def updatePart (db : Db) (tn an : String) (en pn : Nat)
    (p : Models.PartPatch) : Db :=
  { db with parts := updateWhere (partKey tn an en pn) (applyPartPatch p) db.parts }

/-- `updateChapter`'s `updateData`: the present payload keys, with `date`
replaced by its ISO string when present and `outfit`/`kink` mapped through
`?? null` when their key is present (so a present-but-`undefined` value
clears the column to `NULL`). -/
def applyChapterPatch (p : Models.ChapterPatch) (c : ChapterRow) : ChapterRow :=
  ⟨p.timelineName.getD c.timelineName, p.arcName.getD c.arcName,
    p.episodeNumber.getD c.episodeNumber, p.partNumber.getD c.partNumber,
    p.number.getD c.number, p.pov.getD c.pov, p.title.getD c.title,
    p.date.getD c.date, p.excerpt.getD c.excerpt,
    p.location.getD c.location, p.outfit.getD c.outfit, p.kink.getD c.kink,
    p.words.getD c.words, p.characters.getD c.characters,
    p.charactersNoSpaces.getD c.charactersNoSpaces,
    p.paragraphs.getD c.paragraphs, p.sentences.getD c.sentences,
    p.readingTimeMinutes.getD c.readingTimeMinutes⟩

def updateChapter (db : Db) (tn an : String) (en cn : Nat)
    (p : Models.ChapterPatch) : Db :=
  { db with chapters := updateWhere (chKey tn an en cn) (applyChapterPatch p) db.chapters }

end Composite

namespace Composite

/-! ### `deleteTimeline` with composite cascading foreign keys -/

/-- The names of the timeline rows deleted by `deleteTimeline(n)`. -/
def delTimelineNames (db : Db) (n : String) : List String :=
  (db.timelines.filter (fun t => t.name == n)).map TimelineRow.name

/-- The `(timelineName, name)` keys of the arcs cascaded away. -/
def delArcKeys (db : Db) (n : String) : List (String × String) :=
  (db.arcs.filter (fun a => decide (a.timelineName ∈ delTimelineNames db n))).map
    (fun a => (a.timelineName, a.name))

/-- The `(timelineName, arcName, number)` keys of the episodes cascaded
away. -/
def delEpisodeKeys (db : Db) (n : String) : List (String × String × Nat) :=
  (db.episodes.filter (fun e =>
    decide ((e.timelineName, e.arcName) ∈ delArcKeys db n))).map
    (fun e => (e.timelineName, e.arcName, e.number))

/-- The `(timelineName, arcName, episodeNumber, number)` keys of the parts
cascaded away. -/
def delPartKeys (db : Db) (n : String) : List (String × String × Nat × Nat) :=
  (db.parts.filter (fun p =>
    decide ((p.timelineName, p.arcName, p.episodeNumber) ∈ delEpisodeKeys db n))).map
    (fun p => (p.timelineName, p.arcName, p.episodeNumber, p.number))

/-- `deleteTimeline(n)` under the declared composite `ON DELETE CASCADE`
graph: arcs referencing a deleted timeline go, episodes referencing a
deleted arc go, parts referencing a deleted episode go, and chapters go
when their episode reference or their part reference was deleted. -/
def deleteTimeline (db : Db) (n : String) : Db :=
  { timelines := db.timelines.filter (fun t => !(t.name == n)),
    arcs := db.arcs.filter (fun a =>
      !(decide (a.timelineName ∈ delTimelineNames db n))),
    episodes := db.episodes.filter (fun e =>
      !(decide ((e.timelineName, e.arcName) ∈ delArcKeys db n))),
    parts := db.parts.filter (fun p =>
      !(decide ((p.timelineName, p.arcName, p.episodeNumber) ∈ delEpisodeKeys db n))),
    chapters := db.chapters.filter (fun c =>
      !(decide ((c.timelineName, c.arcName, c.episodeNumber) ∈ delEpisodeKeys db n) ||
        decide ((c.timelineName, c.arcName, c.episodeNumber, c.partNumber) ∈
          delPartKeys db n))) }

/-- Referential integrity for the composite schema: every declared
composite foreign key resolves (a chapter needs both its episode and —
`partNumber` being `NOT NULL` — its part). -/
def Consistent (db : Db) : Prop :=
  (∀ a ∈ db.arcs, ∃ t ∈ db.timelines, a.timelineName = t.name) ∧
  (∀ e ∈ db.episodes, ∃ a ∈ db.arcs,
    (e.timelineName, e.arcName) = (a.timelineName, a.name)) ∧
  (∀ p ∈ db.parts, ∃ e ∈ db.episodes,
    (p.timelineName, p.arcName, p.episodeNumber) =
      (e.timelineName, e.arcName, e.number)) ∧
  (∀ c ∈ db.chapters,
    (∃ e ∈ db.episodes,
      (c.timelineName, c.arcName, c.episodeNumber) =
        (e.timelineName, e.arcName, e.number)) ∧
    (∃ p ∈ db.parts,
      (c.timelineName, c.arcName, c.episodeNumber, c.partNumber) =
        (p.timelineName, p.arcName, p.episodeNumber, p.number)))

/-- The arc descends from a timeline named `n`. -/
def ArcUnder (db : Db) (n : String) (a : ArcRow) : Prop :=
  ∃ t ∈ db.timelines, t.name = n ∧ a.timelineName = t.name

/-- The episode descends from a timeline named `n`. -/
def EpisodeUnder (db : Db) (n : String) (e : EpisodeRow) : Prop :=
  ∃ a ∈ db.arcs, ArcUnder db n a ∧
    (e.timelineName, e.arcName) = (a.timelineName, a.name)

/-- The part descends from a timeline named `n`. -/
def PartUnder (db : Db) (n : String) (p : PartRow) : Prop :=
  ∃ e ∈ db.episodes, EpisodeUnder db n e ∧
    (p.timelineName, p.arcName, p.episodeNumber) =
      (e.timelineName, e.arcName, e.number)

/-- The chapter descends from a timeline named `n` (through its episode or
its part). -/
def ChapterUnder (db : Db) (n : String) (c : ChapterRow) : Prop :=
  (∃ e ∈ db.episodes, EpisodeUnder db n e ∧
    (c.timelineName, c.arcName, c.episodeNumber) =
      (e.timelineName, e.arcName, e.number)) ∨
  (∃ p ∈ db.parts, PartUnder db n p ∧
    (c.timelineName, c.arcName, c.episodeNumber, c.partNumber) =
      (p.timelineName, p.arcName, p.episodeNumber, p.number))

theorem arcUnder_hit_comp (db : Db) (n : String) (a : ArcRow)
    (h : ArcUnder db n a) : a.timelineName ∈ delTimelineNames db n := by
  rcases h with ⟨t, ht, hname, hid⟩
  exact List.mem_map.mpr ⟨t, List.mem_filter.mpr ⟨ht, by simp [hname]⟩, hid.symm⟩

theorem episodeUnder_hit_comp (db : Db) (n : String) (e : EpisodeRow)
    (h : EpisodeUnder db n e) :
    (e.timelineName, e.arcName) ∈ delArcKeys db n := by
  rcases h with ⟨a, haa, hu, hk⟩
  exact List.mem_map.mpr
    ⟨a, List.mem_filter.mpr ⟨haa, by simp [arcUnder_hit_comp db n a hu]⟩, hk.symm⟩

theorem partUnder_hit_comp (db : Db) (n : String) (p : PartRow)
    (h : PartUnder db n p) :
    (p.timelineName, p.arcName, p.episodeNumber) ∈ delEpisodeKeys db n := by
  rcases h with ⟨e, hee, hu, hk⟩
  exact List.mem_map.mpr
    ⟨e, List.mem_filter.mpr ⟨hee, by simp [episodeUnder_hit_comp db n e hu]⟩, hk.symm⟩

/-- Cascade correctness of `deleteTimeline` in the composite variant: no
timeline named `n` survives, no descendant row at any level survives, and
the surviving database is still orphan-free. -/
theorem delete_timeline_cascades_comp (db : Db) (n : String) (hdb : Consistent db) :
    (∀ t ∈ (deleteTimeline db n).timelines, t.name ≠ n) ∧
    (∀ a ∈ db.arcs, ArcUnder db n a → a ∉ (deleteTimeline db n).arcs) ∧
    (∀ e ∈ db.episodes, EpisodeUnder db n e → e ∉ (deleteTimeline db n).episodes) ∧
    (∀ p ∈ db.parts, PartUnder db n p → p ∉ (deleteTimeline db n).parts) ∧
    (∀ c ∈ db.chapters, ChapterUnder db n c → c ∉ (deleteTimeline db n).chapters) ∧
    Consistent (deleteTimeline db n) := by
  obtain ⟨hA, hE, hP, hC⟩ := hdb
  refine ⟨?_, ?_, ?_, ?_, ?_, ?_, ?_, ?_, ?_⟩
  · intro t ht
    have := (List.mem_filter.mp ht).2
    simpa using this
  · intro a ha hu hmem
    have h2 := (List.mem_filter.mp hmem).2
    have : a.timelineName ∉ delTimelineNames db n := by simpa using h2
    exact this (arcUnder_hit_comp db n a hu)
  · intro e he hu hmem
    have h2 := (List.mem_filter.mp hmem).2
    have : (e.timelineName, e.arcName) ∉ delArcKeys db n := by simpa using h2
    exact this (episodeUnder_hit_comp db n e hu)
  · intro p hp hu hmem
    have h2 := (List.mem_filter.mp hmem).2
    have : (p.timelineName, p.arcName, p.episodeNumber) ∉ delEpisodeKeys db n := by
      simpa using h2
    exact this (partUnder_hit_comp db n p hu)
  · intro c hc hu hmem
    have h2 := (List.mem_filter.mp hmem).2
    have hsplit : ((c.timelineName, c.arcName, c.episodeNumber) ∉
        delEpisodeKeys db n) ∧
        ((c.timelineName, c.arcName, c.episodeNumber, c.partNumber) ∉
          delPartKeys db n) := by
      constructor
      · intro hin
        rw [Bool.not_eq_true', Bool.or_eq_false_iff] at h2
        have := h2.1
        simpa [hin] using this
      · intro hin
        rw [Bool.not_eq_true', Bool.or_eq_false_iff] at h2
        have := h2.2
        simpa [hin] using this
    rcases hu with ⟨e, hee, heu, hk⟩ | ⟨p, hpp, hpu, hk⟩
    · refine hsplit.1 ?_
      have he : (e.timelineName, e.arcName, e.number) ∈ delEpisodeKeys db n := by
        rcases heu with ⟨a, haa, hau, hak⟩
        exact List.mem_map.mpr
          ⟨e, List.mem_filter.mpr ⟨hee, by
            simp [episodeUnder_hit_comp db n e ⟨a, haa, hau, hak⟩]⟩, rfl⟩
      rw [hk]
      exact he
    · refine hsplit.2 ?_
      have hpd : (p.timelineName, p.arcName, p.episodeNumber, p.number) ∈
          delPartKeys db n := by
        rcases hpu with ⟨e, hee, heu, hek⟩
        exact List.mem_map.mpr
          ⟨p, List.mem_filter.mpr ⟨hpp, by
            simp [partUnder_hit_comp db n p ⟨e, hee, heu, hek⟩]⟩, rfl⟩
      rw [hk]
      exact hpd
  · intro a ha
    have h1 := (List.mem_filter.mp ha).1
    have h2 := (List.mem_filter.mp ha).2
    have hnot : a.timelineName ∉ delTimelineNames db n := by simpa using h2
    exact surviving_child_has_surviving_parent db.timelines
      (fun t => t.name == n) TimelineRow.name a.timelineName (hA a h1) hnot
  · intro e he
    have h1 := (List.mem_filter.mp he).1
    have h2 := (List.mem_filter.mp he).2
    have hnot : (e.timelineName, e.arcName) ∉ delArcKeys db n := by simpa using h2
    exact surviving_child_has_surviving_parent db.arcs
      (fun a => decide (a.timelineName ∈ delTimelineNames db n))
      (fun a => (a.timelineName, a.name)) (e.timelineName, e.arcName)
      (hE e h1) hnot
  · intro p hp
    have h1 := (List.mem_filter.mp hp).1
    have h2 := (List.mem_filter.mp hp).2
    have hnot : (p.timelineName, p.arcName, p.episodeNumber) ∉
        delEpisodeKeys db n := by simpa using h2
    exact surviving_child_has_surviving_parent db.episodes
      (fun e => decide ((e.timelineName, e.arcName) ∈ delArcKeys db n))
      (fun e => (e.timelineName, e.arcName, e.number))
      (p.timelineName, p.arcName, p.episodeNumber) (hP p h1) hnot
  · intro c hc
    have h1 := (List.mem_filter.mp hc).1
    have h2 := (List.mem_filter.mp hc).2
    rw [Bool.not_eq_true', Bool.or_eq_false_iff] at h2
    constructor
    · have hnot : (c.timelineName, c.arcName, c.episodeNumber) ∉
          delEpisodeKeys db n := by simpa using h2.1
      exact surviving_child_has_surviving_parent db.episodes
        (fun e => decide ((e.timelineName, e.arcName) ∈ delArcKeys db n))
        (fun e => (e.timelineName, e.arcName, e.number))
        (c.timelineName, c.arcName, c.episodeNumber) ((hC c h1).1) hnot
    · have hnot : (c.timelineName, c.arcName, c.episodeNumber, c.partNumber) ∉
          delPartKeys db n := by simpa using h2.2
      exact surviving_child_has_surviving_parent db.parts
        (fun p => decide ((p.timelineName, p.arcName, p.episodeNumber) ∈
          delEpisodeKeys db n))
        (fun p => (p.timelineName, p.arcName, p.episodeNumber, p.number))
        (c.timelineName, c.arcName, c.episodeNumber, c.partNumber)
        ((hC c h1).2) hnot

end Composite

/-- Claim C5: under either keying strategy, for every orphan-free stored
hierarchy, deleting a Timeline removes every descendant row — its arcs,
their episodes, their parts and chapters — transitively through the
declared cascading foreign keys, and leaves zero orphaned rows in any of
the five tables. -/
theorem delete_timeline_removes_descendants :
    (∀ (db : Keyed.Db) (n : String), Keyed.Consistent db →
      ((∀ t ∈ (Keyed.deleteTimeline db n).timelines, t.name ≠ n) ∧
        (∀ a ∈ db.arcs, Keyed.ArcUnder db n a →
          a ∉ (Keyed.deleteTimeline db n).arcs) ∧
        (∀ e ∈ db.episodes, Keyed.EpisodeUnder db n e →
          e ∉ (Keyed.deleteTimeline db n).episodes) ∧
        (∀ p ∈ db.parts, Keyed.PartUnder db n p →
          p ∉ (Keyed.deleteTimeline db n).parts) ∧
        (∀ c ∈ db.chapters, Keyed.ChapterUnder db n c →
          c ∉ (Keyed.deleteTimeline db n).chapters) ∧
        Keyed.Consistent (Keyed.deleteTimeline db n))) ∧
    (∀ (db : Composite.Db) (n : String), Composite.Consistent db →
      ((∀ t ∈ (Composite.deleteTimeline db n).timelines, t.name ≠ n) ∧
        (∀ a ∈ db.arcs, Composite.ArcUnder db n a →
          a ∉ (Composite.deleteTimeline db n).arcs) ∧
        (∀ e ∈ db.episodes, Composite.EpisodeUnder db n e →
          e ∉ (Composite.deleteTimeline db n).episodes) ∧
        (∀ p ∈ db.parts, Composite.PartUnder db n p →
          p ∉ (Composite.deleteTimeline db n).parts) ∧
        (∀ c ∈ db.chapters, Composite.ChapterUnder db n c →
          c ∉ (Composite.deleteTimeline db n).chapters) ∧
        Composite.Consistent (Composite.deleteTimeline db n))) :=
  ⟨fun db n h => Keyed.delete_timeline_cascades db n h,
    fun db n h => Composite.delete_timeline_cascades_comp db n h⟩

/-- A one-row-per-table keyed-variant hierarchy under timeline `t`. -/
def demoKeyedDb : Keyed.Db :=
  ⟨[⟨1, "t", "T", none⟩],
    [⟨1, 1, "a", "A", none, 1⟩],
    [⟨1, 1, 1, "E", none⟩],
    [⟨1, 1, 1, "P", none⟩],
    [⟨1, some 1, some 1, 1, "C", "body", 10, 50⟩]⟩

/-- A one-row-per-table composite-variant hierarchy under timeline `t`. -/
def demoCompDb : Composite.Db :=
  ⟨[⟨"t", some "d"⟩],
    [⟨"t", "a", 1, none⟩],
    [⟨"t", "a", 1, "s", "E", none⟩],
    [⟨"t", "a", 1, 1, "s", "P", none⟩],
    [⟨"t", "a", 1, 1, 1, "alice", "C", "2024-01-01", "x", "loc", none, none,
      10, 50, 40, 2, 5, 1⟩]⟩

theorem demoKeyedDb_consistent : Keyed.Consistent demoKeyedDb := by
  unfold Keyed.Consistent demoKeyedDb
  refine ⟨?_, ?_, ?_, ?_⟩ <;> simp

theorem demoCompDb_consistent : Composite.Consistent demoCompDb := by
  unfold Composite.Consistent demoCompDb
  refine ⟨?_, ?_, ?_, ?_⟩ <;> simp

/-- Witness for C5 at the two concrete hierarchies. -/
theorem delete_timeline_removes_descendants_witness :
    (Keyed.Consistent demoKeyedDb ∧ Composite.Consistent demoCompDb) ∧
    (((∀ t ∈ (Keyed.deleteTimeline demoKeyedDb "t").timelines, t.name ≠ "t") ∧
        (∀ a ∈ demoKeyedDb.arcs, Keyed.ArcUnder demoKeyedDb "t" a →
          a ∉ (Keyed.deleteTimeline demoKeyedDb "t").arcs) ∧
        (∀ e ∈ demoKeyedDb.episodes, Keyed.EpisodeUnder demoKeyedDb "t" e →
          e ∉ (Keyed.deleteTimeline demoKeyedDb "t").episodes) ∧
        (∀ p ∈ demoKeyedDb.parts, Keyed.PartUnder demoKeyedDb "t" p →
          p ∉ (Keyed.deleteTimeline demoKeyedDb "t").parts) ∧
        (∀ c ∈ demoKeyedDb.chapters, Keyed.ChapterUnder demoKeyedDb "t" c →
          c ∉ (Keyed.deleteTimeline demoKeyedDb "t").chapters) ∧
        Keyed.Consistent (Keyed.deleteTimeline demoKeyedDb "t")) ∧
      ((∀ t ∈ (Composite.deleteTimeline demoCompDb "t").timelines, t.name ≠ "t") ∧
        (∀ a ∈ demoCompDb.arcs, Composite.ArcUnder demoCompDb "t" a →
          a ∉ (Composite.deleteTimeline demoCompDb "t").arcs) ∧
        (∀ e ∈ demoCompDb.episodes, Composite.EpisodeUnder demoCompDb "t" e →
          e ∉ (Composite.deleteTimeline demoCompDb "t").episodes) ∧
        (∀ p ∈ demoCompDb.parts, Composite.PartUnder demoCompDb "t" p →
          p ∉ (Composite.deleteTimeline demoCompDb "t").parts) ∧
        (∀ c ∈ demoCompDb.chapters, Composite.ChapterUnder demoCompDb "t" c →
          c ∉ (Composite.deleteTimeline demoCompDb "t").chapters) ∧
        Composite.Consistent (Composite.deleteTimeline demoCompDb "t"))) :=
  ⟨⟨demoKeyedDb_consistent, demoCompDb_consistent⟩,
    delete_timeline_removes_descendants.1 demoKeyedDb "t" demoKeyedDb_consistent,
    delete_timeline_removes_descendants.2 demoCompDb "t" demoCompDb_consistent⟩

/-! ## Surrogate variant

The join-based `Tracker` class over the tables of `src/lib/database.ts`:
integer surrogate keys, human-readable addressing resolved through
`INNER JOIN`s up the chain, the chapter's part resolved through a
`LEFT JOIN`. -/

namespace Surrogate

structure TimelineRow where
  id : Nat
  name : String
  description : Option String
deriving DecidableEq

structure ArcRow where
  id : Nat
  timeline_id : Nat
  name : String
  number : Nat
  description : Option String
deriving DecidableEq

structure EpisodeRow where
  id : Nat
  arc_id : Nat
  number : Nat
  slug : String
  title : String
  description : Option String
deriving DecidableEq

structure PartRow where
  id : Nat
  episode_id : Nat
  number : Nat
  slug : String
  title : String
  description : Option String
deriving DecidableEq

structure ChapterRow where
  id : Nat
  episode_id : Nat
  part_id : Option Nat
  number : Nat
  pov : String
  title : String
  date : String
  excerpt : String
  location : String
  outfit : Option String
  kink : Option String
  words : Nat
  characters : Nat
  characters_no_spaces : Nat
  paragraphs : Nat
  sentences : Nat
  reading_time_minutes : Nat
deriving DecidableEq

structure Db where
  timelines : List TimelineRow
  arcs : List ArcRow
  episodes : List EpisodeRow
  parts : List PartRow
  chapters : List ChapterRow
deriving DecidableEq

/-! ### Join predicates -/

/-- `INNER JOIN timeline ON timeline.id = ? WHERE timeline.name = ?`. -/
def timelineMatches (tls : List TimelineRow) (tn : String) (tid : Nat) : Bool :=
  tls.any (fun t => t.id == tid && t.name == tn)

/-- The arc `WHERE` clause of the joined arc queries. -/
def arcPred (tls : List TimelineRow) (tn an : String) (a : ArcRow) : Bool :=
  a.name == an && timelineMatches tls tn a.timeline_id

/-- `INNER JOIN arc ... INNER JOIN timeline ...` for a stored `arc_id`. -/
def arcMatches (tls : List TimelineRow) (arcs : List ArcRow) (tn an : String)
    (aid : Nat) : Bool :=
  arcs.any (fun a => a.id == aid && arcPred tls tn an a)

/-- The episode `WHERE` clause of the joined episode queries. -/
def epPred (tls : List TimelineRow) (arcs : List ArcRow) (tn an : String)
    (en : Nat) (e : EpisodeRow) : Bool :=
  e.number == en && arcMatches tls arcs tn an e.arc_id

/-- The full join chain for a stored `episode_id`. -/
def episodeMatches (db : Db) (tn an : String) (en : Nat) (eid : Nat) : Bool :=
  db.episodes.any (fun e => e.id == eid && epPred db.timelines db.arcs tn an en e)

/-- `SELECT arc.id ... WHERE timeline.name = ? AND arc.name = ?`,
`executeTakeFirst`. -/
def findArc (db : Db) (tn an : String) : Option ArcRow :=
  db.arcs.find? (arcPred db.timelines tn an)

def getArc (db : Db) (tn an : String) : Option Models.Arc :=
  (findArc db tn an).map
    (fun a => ⟨tn, a.name, a.number, jsOrEmpty a.description⟩)

def findEpisode (db : Db) (tn an : String) (en : Nat) : Option EpisodeRow :=
  db.episodes.find? (epPred db.timelines db.arcs tn an en)

/-- `LEFT JOIN part ON part.id = chapter.part_id`, selecting
`part.number`: `NULL` when the chapter has no part. -/
def joinedPartNumber (db : Db) (c : ChapterRow) : Option Nat :=
  match c.part_id with
  | none => none
  | some pid => (db.parts.find? (fun p => p.id == pid)).map PartRow.number

/-- Rehydration of a joined chapter row: `partNumber` through `|| 0`,
`outfit`/`kink` through `|| undefined`. -/
def chapterToApi (db : Db) (tn an : String) (en : Nat) (c : ChapterRow) :
    Models.Chapter :=
  ⟨tn, an, en, jsOrZero (joinedPartNumber db c), c.number, c.pov, c.title,
    c.date, c.excerpt, c.location, jsOrUndef c.outfit, jsOrUndef c.kink,
    c.words, c.characters, c.characters_no_spaces, c.paragraphs,
    c.sentences, c.reading_time_minutes⟩

/-- The chapter `WHERE` clause of `getChapter`. -/
def chPred (db : Db) (tn an : String) (en cn : Nat) (c : ChapterRow) : Bool :=
  c.number == cn && episodeMatches db tn an en c.episode_id

def getChapter (db : Db) (tn an : String) (en cn : Nat) :
    Option Models.Chapter :=
  (db.chapters.find? (chPred db tn an en cn)).map (chapterToApi db tn an en)

/-- `getChapters`: the joined filter, the optional `part.number = ?` clause
(which drops part-less chapters, their joined `part.number` being `NULL`),
`ORDER BY chapter.number`. -/
def getChapters (db : Db) (tn an : String) (en : Nat) (pn : Option Nat) :
    List Models.Chapter :=
  (sortByKey ChapterRow.number
    (db.chapters.filter (fun c =>
      episodeMatches db tn an en c.episode_id &&
        (match pn with
         | none => true
         | some k => joinedPartNumber db c == some k)))).map
    (chapterToApi db tn an en)

/-! ### `createChapter` and `updateArc` -/

/-- `AUTOINCREMENT` for the chapter table. -/
def nextChapterId (db : Db) : Nat :=
  db.chapters.foldr (fun c m => max c.id m) 0 + 1

/-- The inserted chapter row: the validated fields, `outfit`/`kink` stored
as given (an absent optional becomes a stored `NULL`). -/
def chapterRowWith (cid eid : Nat) (pid : Option Nat) (x : Models.Chapter) :
    ChapterRow :=
  ⟨cid, eid, pid, x.number, x.pov, x.title, x.date, x.excerpt, x.location,
    x.outfit, x.kink, x.words, x.characters, x.charactersNoSpaces,
    x.paragraphs, x.sentences, x.readingTimeMinutes⟩

/-- `createChapter`: resolve the episode (throw if missing), resolve the
part only when `validated.partNumber` is truthy — `0` is falsy, so a
chapter numbered into part `0` is stored with a `NULL` `part_id` — then
insert.  The throwing paths leave the store untouched. -/
def createChapter (db : Db) (x : Models.Chapter) : Db :=
  match findEpisode db x.timelineName x.arcName x.episodeNumber with
  | none => db
  | some e =>
    if x.partNumber == 0 then
      { db with chapters :=
          db.chapters ++ [chapterRowWith (nextChapterId db) e.id none x] }
    else
      match db.parts.find? (fun p => p.episode_id == e.id && p.number == x.partNumber) with
      | none => db
      | some p =>
        { db with chapters :=
            db.chapters ++ [chapterRowWith (nextChapterId db) e.id (some p.id) x] }

/-- The `SET` object of the surrogate `updateArc`: only the `number` and
`description` columns are passed (absent payload keys are dropped as
`undefined`); `timelineName`/`name` present in the payload are ignored by
this operation. -/
def applyArcSet (p : Models.ArcPatch) (a : ArcRow) : ArcRow :=
  { a with
    number := p.number.getD a.number,
    description := setNullable p.description a.description }

/-- `updateArc`: resolve the arc id through the join (throw if missing),
then `UPDATE arc SET ... WHERE id = ?`. -/
def updateArc (db : Db) (tn an : String) (p : Models.ArcPatch) : Db :=
  match findArc db tn an with
  | none => db
  | some a0 =>
    { db with arcs := updateWhere (fun r => r.id == a0.id) (applyArcSet p) db.arcs }

end Surrogate

namespace Composite

theorem updateTimeline_frame (db : Db) (n : String)
    (p : Models.TimelinePatch) (old : Models.Timeline)
    (hold : getTimeline db n = some old) (h1 : p.name = none) :
    getTimeline (updateTimeline db n p) n =
      some ⟨old.name, p.description.getD old.description⟩ := by
  unfold getTimeline at hold ⊢
  rcases hfind : db.timelines.find? (tlKey n) with _ | r0
  · rw [hfind] at hold
    simp at hold
  · rw [hfind] at hold
    have hapi : timelineToApi r0 = old := by simpa using hold
    have hpres : ∀ a, tlKey n a = true → tlKey n (applyTimelinePatch p a) = true := by
      intro a ha
      simpa [tlKey, applyTimelinePatch, h1] using ha
    unfold updateTimeline
    rw [show (Db.mk (updateWhere (tlKey n) (applyTimelinePatch p) db.timelines)
        db.arcs db.episodes db.parts db.chapters).timelines =
        updateWhere (tlKey n) (applyTimelinePatch p) db.timelines from rfl,
      find?_updateWhere (tlKey n) (applyTimelinePatch p) db.timelines hpres r0 hfind]
    rw [← hapi]
    rcases p with ⟨pn, pd⟩
    obtain rfl : pn = none := h1
    rcases pd with _ | v <;>
      simp [timelineToApi, applyTimelinePatch, setNullable, jsOrEmpty]

theorem updateArc_frame (db : Db) (tn an : String)
    (p : Models.ArcPatch) (old : Models.Arc)
    (hold : getArc db tn an = some old)
    (h1 : p.timelineName = none) (h2 : p.name = none) :
    getArc (updateArc db tn an p) tn an =
      some ⟨old.timelineName, old.name, p.number.getD old.number,
        p.description.getD old.description⟩ := by
  unfold getArc at hold ⊢
  rcases hfind : db.arcs.find? (arcKey tn an) with _ | r0
  · rw [hfind] at hold
    simp at hold
  · rw [hfind] at hold
    have hapi : arcToApi r0 = old := by simpa using hold
    have hpres : ∀ a, arcKey tn an a = true →
        arcKey tn an (applyArcPatch p a) = true := by
      intro a ha
      simpa [arcKey, applyArcPatch, h1, h2] using ha
    unfold updateArc
    rw [show (Db.mk db.timelines
        (updateWhere (arcKey tn an) (applyArcPatch p) db.arcs)
        db.episodes db.parts db.chapters).arcs =
        updateWhere (arcKey tn an) (applyArcPatch p) db.arcs from rfl,
      find?_updateWhere (arcKey tn an) (applyArcPatch p) db.arcs hpres r0 hfind]
    rw [← hapi]
    rcases p with ⟨ptn, pn, pnum, pd⟩
    obtain rfl : ptn = none := h1
    obtain rfl : pn = none := h2
    rcases pd with _ | v <;>
      simp [arcToApi, applyArcPatch, setNullable, jsOrEmpty]

theorem updateEpisode_frame (db : Db) (tn an : String) (en : Nat)
    (p : Models.EpisodePatch) (old : Models.Episode)
    (hold : getEpisode db tn an en = some old)
    (h1 : p.timelineName = none) (h2 : p.arcName = none)
    (h3 : p.number = none) :
    getEpisode (updateEpisode db tn an en p) tn an en =
      some ⟨old.timelineName, old.arcName, old.number,
        p.slug.getD old.slug, p.title.getD old.title,
        p.description.getD old.description⟩ := by
  unfold getEpisode at hold ⊢
  rcases hfind : db.episodes.find? (epKey tn an en) with _ | r0
  · rw [hfind] at hold
    simp at hold
  · rw [hfind] at hold
    have hapi : episodeToApi r0 = old := by simpa using hold
    have hpres : ∀ e, epKey tn an en e = true →
        epKey tn an en (applyEpisodePatch p e) = true := by
      intro e he
      simpa [epKey, applyEpisodePatch, h1, h2, h3] using he
    unfold updateEpisode
    rw [show (Db.mk db.timelines db.arcs
        (updateWhere (epKey tn an en) (applyEpisodePatch p) db.episodes)
        db.parts db.chapters).episodes =
        updateWhere (epKey tn an en) (applyEpisodePatch p) db.episodes from rfl,
      find?_updateWhere (epKey tn an en) (applyEpisodePatch p) db.episodes hpres r0 hfind]
    rw [← hapi]
    rcases p with ⟨ptn, pan, pnum, ps, pt, pd⟩
    obtain rfl : ptn = none := h1
    obtain rfl : pan = none := h2
    obtain rfl : pnum = none := h3
    rcases pd with _ | v <;>
      simp [episodeToApi, applyEpisodePatch, setNullable, jsOrEmpty]

theorem updatePart_frame (db : Db) (tn an : String) (en pn : Nat)
    (p : Models.PartPatch) (old : Models.Part)
    (hold : getPart db tn an en pn = some old)
    (h1 : p.timelineName = none) (h2 : p.arcName = none)
    (h3 : p.episodeNumber = none) (h4 : p.number = none) :
    getPart (updatePart db tn an en pn p) tn an en pn =
      some ⟨old.timelineName, old.arcName, old.episodeNumber, old.number,
        p.slug.getD old.slug, p.title.getD old.title,
        p.description.getD old.description⟩ := by
  unfold getPart at hold ⊢
  rcases hfind : db.parts.find? (partKey tn an en pn) with _ | r0
  · rw [hfind] at hold
    simp at hold
  · rw [hfind] at hold
    have hapi : partToApi r0 = old := by simpa using hold
    have hpres : ∀ r, partKey tn an en pn r = true →
        partKey tn an en pn (applyPartPatch p r) = true := by
      intro r hr
      simpa [partKey, applyPartPatch, h1, h2, h3, h4] using hr
    unfold updatePart
    rw [show (Db.mk db.timelines db.arcs db.episodes
        (updateWhere (partKey tn an en pn) (applyPartPatch p) db.parts)
        db.chapters).parts =
        updateWhere (partKey tn an en pn) (applyPartPatch p) db.parts from rfl,
      find?_updateWhere (partKey tn an en pn) (applyPartPatch p) db.parts hpres r0 hfind]
    rw [← hapi]
    rcases p with ⟨ptn, pan, pen, pnum, ps, pt, pd⟩
    obtain rfl : ptn = none := h1
    obtain rfl : pan = none := h2
    obtain rfl : pen = none := h3
    obtain rfl : pnum = none := h4
    rcases pd with _ | v <;>
      simp [partToApi, applyPartPatch, setNullable, jsOrEmpty]

theorem updateChapter_frame (db : Db) (tn an : String) (en cn : Nat)
    (p : Models.ChapterPatch) (old : Models.Chapter)
    (hold : getChapter db tn an en cn = some old)
    (h1 : p.timelineName = none) (h2 : p.arcName = none)
    (h3 : p.episodeNumber = none) (h4 : p.number = none) :
    getChapter (updateChapter db tn an en cn p) tn an en cn =
      some ⟨old.timelineName, old.arcName, old.episodeNumber,
        p.partNumber.getD old.partNumber, old.number,
        p.pov.getD old.pov, p.title.getD old.title, p.date.getD old.date,
        p.excerpt.getD old.excerpt, p.location.getD old.location,
        p.outfit.getD old.outfit, p.kink.getD old.kink,
        p.words.getD old.words, p.characters.getD old.characters,
        p.charactersNoSpaces.getD old.charactersNoSpaces,
        p.paragraphs.getD old.paragraphs, p.sentences.getD old.sentences,
        p.readingTimeMinutes.getD old.readingTimeMinutes⟩ := by
  unfold getChapter at hold ⊢
  rcases hfind : db.chapters.find? (chKey tn an en cn) with _ | r0
  · rw [hfind] at hold
    simp at hold
  · rw [hfind] at hold
    have hapi : chapterToApi r0 = old := by simpa using hold
    have hpres : ∀ c, chKey tn an en cn c = true →
        chKey tn an en cn (applyChapterPatch p c) = true := by
      intro c hc
      simpa [chKey, applyChapterPatch, h1, h2, h3, h4] using hc
    unfold updateChapter
    rw [show (Db.mk db.timelines db.arcs db.episodes db.parts
        (updateWhere (chKey tn an en cn) (applyChapterPatch p) db.chapters)).chapters =
        updateWhere (chKey tn an en cn) (applyChapterPatch p) db.chapters from rfl,
      find?_updateWhere (chKey tn an en cn) (applyChapterPatch p) db.chapters hpres r0 hfind]
    rw [← hapi]
    simp [chapterToApi, applyChapterPatch, h1, h2, h3, h4]

end Composite

namespace Surrogate

theorem updateArc_frame_surrogate (db : Db) (tn an : String)
    (p : Models.ArcPatch) (old : Models.Arc)
    (hold : getArc db tn an = some old) :
    getArc (updateArc db tn an p) tn an =
      some ⟨old.timelineName, old.name, p.number.getD old.number,
        p.description.getD old.description⟩ := by
  unfold getArc at hold ⊢
  rcases hfind : findArc db tn an with _ | a0
  · rw [hfind] at hold
    simp at hold
  · rw [hfind] at hold
    have hapi : (⟨tn, a0.name, a0.number, jsOrEmpty a0.description⟩ :
        Models.Arc) = old := by simpa using hold
    have hfind0 : db.arcs.find? (arcPred db.timelines tn an) = some a0 := hfind
    have hinv : ∀ r, arcPred db.timelines tn an
        (if r.id == a0.id then applyArcSet p r else r) =
        arcPred db.timelines tn an r := by
      intro r
      by_cases hid : r.id == a0.id
      · simp [hid, arcPred, applyArcSet]
      · simp [hid]
    have hfound : (updateWhere (fun r => r.id == a0.id) (applyArcSet p)
        db.arcs).find? (arcPred db.timelines tn an) =
        some (applyArcSet p a0) := by
      rw [updateWhere,
        find?_map_invariant (arcPred db.timelines tn an)
          (fun r => if r.id == a0.id then applyArcSet p r else r) db.arcs hinv,
        hfind0]
      simp
    have hres : findArc (updateArc db tn an p) tn an =
        some (applyArcSet p a0) := by
      unfold updateArc
      rw [hfind]
      exact hfound
    rw [hres]
    rw [← hapi]
    rcases p with ⟨ptn, pname, pnum, pd⟩
    rcases pd with _ | v <;>
      simp [applyArcSet, setNullable, jsOrEmpty]

end Surrogate

/-- A surrogate-variant store holding timeline `t` and its arc `a`. -/
def demoSurDb : Surrogate.Db :=
  ⟨[⟨1, "t", none⟩], [⟨1, 1, "a", 1, none⟩], [], [], []⟩

/-- Counterexample to C6 as stated: in the surrogate variant, `updateArc`
passes only `number` and `description` to `SET`, so the identity field
`name`, although present in the validated payload, is not stored: after
`updateArc('t', 'a', { name: 'b' })` there is no arc named `b` and the arc
is still stored under its previous name `a` — the present field was not
applied. -/
theorem update_payload_identity_ignored :
    Surrogate.updateArc demoSurDb "t" "a" { name := some "b" } = demoSurDb ∧
    Surrogate.getArc (Surrogate.updateArc demoSurDb "t" "a" { name := some "b" })
      "t" "b" = none ∧
    Surrogate.getArc (Surrogate.updateArc demoSurDb "t" "a" { name := some "b" })
      "t" "a" = some ⟨"t", "a", 1, ""⟩ :=
  ⟨by decide, by decide, by decide⟩

/-- Claim C6 (amended): for every partial-update call on an existing
entity, every field omitted from the update payload keeps its previous
stored value; every field present in the payload and belonging to the
operation's updated columns is stored exactly as given — all payload
fields for the composite-variant operations (stated here for non-identity
fields, read back at the unchanged address), but only `number` and
`description` for the surrogate-variant `updateArc`, which ignores
identity fields present in the payload. -/
theorem updates_preserve_omitted_fields :
    (∀ (db : Composite.Db) (n : String) (p : Models.TimelinePatch)
        (old : Models.Timeline),
      Composite.getTimeline db n = some old → p.name = none →
        Composite.getTimeline (Composite.updateTimeline db n p) n =
          some ⟨old.name, p.description.getD old.description⟩) ∧
    (∀ (db : Composite.Db) (tn an : String) (p : Models.ArcPatch)
        (old : Models.Arc),
      Composite.getArc db tn an = some old →
        p.timelineName = none → p.name = none →
        Composite.getArc (Composite.updateArc db tn an p) tn an =
          some ⟨old.timelineName, old.name, p.number.getD old.number,
            p.description.getD old.description⟩) ∧
    (∀ (db : Composite.Db) (tn an : String) (en : Nat)
        (p : Models.EpisodePatch) (old : Models.Episode),
      Composite.getEpisode db tn an en = some old →
        p.timelineName = none → p.arcName = none → p.number = none →
        Composite.getEpisode (Composite.updateEpisode db tn an en p) tn an en =
          some ⟨old.timelineName, old.arcName, old.number,
            p.slug.getD old.slug, p.title.getD old.title,
            p.description.getD old.description⟩) ∧
    (∀ (db : Composite.Db) (tn an : String) (en pn : Nat)
        (p : Models.PartPatch) (old : Models.Part),
      Composite.getPart db tn an en pn = some old →
        p.timelineName = none → p.arcName = none →
        p.episodeNumber = none → p.number = none →
        Composite.getPart (Composite.updatePart db tn an en pn p) tn an en pn =
          some ⟨old.timelineName, old.arcName, old.episodeNumber, old.number,
            p.slug.getD old.slug, p.title.getD old.title,
            p.description.getD old.description⟩) ∧
    (∀ (db : Composite.Db) (tn an : String) (en cn : Nat)
        (p : Models.ChapterPatch) (old : Models.Chapter),
      Composite.getChapter db tn an en cn = some old →
        p.timelineName = none → p.arcName = none →
        p.episodeNumber = none → p.number = none →
        Composite.getChapter (Composite.updateChapter db tn an en cn p) tn an en cn =
          some ⟨old.timelineName, old.arcName, old.episodeNumber,
            p.partNumber.getD old.partNumber, old.number,
            p.pov.getD old.pov, p.title.getD old.title, p.date.getD old.date,
            p.excerpt.getD old.excerpt, p.location.getD old.location,
            p.outfit.getD old.outfit, p.kink.getD old.kink,
            p.words.getD old.words, p.characters.getD old.characters,
            p.charactersNoSpaces.getD old.charactersNoSpaces,
            p.paragraphs.getD old.paragraphs, p.sentences.getD old.sentences,
            p.readingTimeMinutes.getD old.readingTimeMinutes⟩) ∧
    (∀ (db : Surrogate.Db) (tn an : String) (p : Models.ArcPatch)
        (old : Models.Arc),
      Surrogate.getArc db tn an = some old →
        Surrogate.getArc (Surrogate.updateArc db tn an p) tn an =
          some ⟨old.timelineName, old.name, p.number.getD old.number,
            p.description.getD old.description⟩) :=
  ⟨Composite.updateTimeline_frame, Composite.updateArc_frame,
    Composite.updateEpisode_frame, Composite.updatePart_frame,
    Composite.updateChapter_frame, Surrogate.updateArc_frame_surrogate⟩

/-- A chapter patch: `title` present with a value, `outfit` present but
explicitly `undefined` (clears the column), `kink` present with a value;
every other key absent. -/
def demoChapterPatch : Models.ChapterPatch :=
  { title := some "New", outfit := some none, kink := some (some "k") }

/-- An arc patch touching the two updatable surrogate columns. -/
def demoArcPatch2 : Models.ArcPatch :=
  { number := some 2, description := some "x" }

/-- Witness for C6 at the two concrete stores: the chapter update applies
`title`/`kink`, clears `outfit`, and leaves every omitted field unchanged;
the surrogate arc update applies `number`/`description` and leaves the
rest unchanged. -/
theorem updates_preserve_omitted_fields_witness :
    (Composite.getChapter demoCompDb "t" "a" 1 1 =
        some ⟨"t", "a", 1, 1, 1, "alice", "C", "2024-01-01", "x", "loc",
          none, none, 10, 50, 40, 2, 5, 1⟩ ∧
      Composite.getChapter
          (Composite.updateChapter demoCompDb "t" "a" 1 1 demoChapterPatch)
          "t" "a" 1 1 =
        some ⟨"t", "a", 1, 1, 1, "alice", "New", "2024-01-01", "x", "loc",
          none, some "k", 10, 50, 40, 2, 5, 1⟩) ∧
    (Surrogate.getArc demoSurDb "t" "a" = some ⟨"t", "a", 1, ""⟩ ∧
      Surrogate.getArc (Surrogate.updateArc demoSurDb "t" "a" demoArcPatch2)
          "t" "a" = some ⟨"t", "a", 2, "x"⟩) :=
  ⟨⟨rfl,
      updates_preserve_omitted_fields.2.2.2.2.1 demoCompDb "t" "a" 1 1
        demoChapterPatch
        ⟨"t", "a", 1, 1, 1, "alice", "C", "2024-01-01", "x", "loc",
          none, none, 10, 50, 40, 2, 5, 1⟩ rfl rfl rfl rfl rfl⟩,
    ⟨rfl,
      updates_preserve_omitted_fields.2.2.2.2.2 demoSurDb "t" "a"
        demoArcPatch2 ⟨"t", "a", 1, ""⟩ rfl⟩⟩

namespace Composite

/-- If a predicate finds nothing in `l₁`, searching the extension is
searching the appended part. -/
theorem find?_append_of_none (l1 l2 : List α) (p : α → Bool)
    (h : l1.find? p = none) : (l1 ++ l2).find? p = l2.find? p := by
  induction l1 with
  | nil => rfl
  | cons a l ih =>
    by_cases ha : p a
    · rw [List.find?_cons_of_pos _ ha] at h
      exact absurd h (by simp)
    · rw [List.find?_cons_of_neg _ ha] at h
      rw [List.cons_append, List.find?_cons_of_neg _ ha]
      exact ih h

/-- Create/read round trip in the composite variant: inserting a validated
chapter and reading it back at its identity path returns exactly the
record that was inserted (timestamps are store-assigned and outside the
record). -/
theorem create_get_chapter_roundtrip (db : Db) (x : Models.Chapter)
    (hfree : getChapter db x.timelineName x.arcName x.episodeNumber x.number
      = none) :
    getChapter (createChapter db x) x.timelineName x.arcName x.episodeNumber
      x.number = some x := by
  unfold getChapter at hfree ⊢
  have hnone : db.chapters.find?
      (chKey x.timelineName x.arcName x.episodeNumber x.number) = none := by
    rcases h : db.chapters.find?
        (chKey x.timelineName x.arcName x.episodeNumber x.number) with _ | r
    · rfl
    · rw [h] at hfree
      simp at hfree
  have hx : chKey x.timelineName x.arcName x.episodeNumber x.number
      (chapterRowOf x) = true := by
    simp [chKey, chapterRowOf]
  unfold createChapter
  rw [show (Db.mk db.timelines db.arcs db.episodes db.parts
      (db.chapters ++ [chapterRowOf x])).chapters =
      db.chapters ++ [chapterRowOf x] from rfl,
    find?_append_of_none db.chapters [chapterRowOf x] _ hnone,
    List.find?_cons_of_pos _ hx]
  rfl

end Composite

/-- Claim C7: for every valid input record `X` whose identity path is
still free, `create(X)` followed by `getByIdentity` at `X`'s identity path
returns a record equal to `X` in every field except the store-assigned
timestamps (which are outside the API record). -/
theorem create_then_get_returns_input (db : Composite.Db) (x : Models.Chapter)
    (hfree : Composite.getChapter db x.timelineName x.arcName x.episodeNumber
      x.number = none) :
    Composite.getChapter (Composite.createChapter db x) x.timelineName
      x.arcName x.episodeNumber x.number = some x :=
  Composite.create_get_chapter_roundtrip db x hfree

/-- A fresh chapter record at the free identity `(t, a, 1, 2)`. -/
def demoChapterX : Models.Chapter :=
  ⟨"t", "a", 1, 1, 2, "bob", "C2", "2024-01-02", "e2", "loc2",
    some "dress", none, 5, 20, 18, 1, 2, 1⟩

/-- Witness for C7: the identity `(t, a, 1, 2)` is free in the demo store,
and creating `demoChapterX` then reading it back returns it exactly. -/
theorem create_then_get_returns_input_witness :
    Composite.getChapter demoCompDb "t" "a" 1 2 = none ∧
    Composite.getChapter (Composite.createChapter demoCompDb demoChapterX)
      "t" "a" 1 2 = some demoChapterX :=
  ⟨rfl, create_then_get_returns_input demoCompDb demoChapterX rfl⟩

/-- A surrogate-variant store with timeline `t`, arc `a`, episode `1` and
no chapters. -/
def demoSurDb2 : Surrogate.Db :=
  ⟨[⟨1, "t", none⟩], [⟨1, 1, "a", 1, none⟩], [⟨1, 1, 1, "s", "E", none⟩],
    [], []⟩

/-- A chapter input whose `outfit` is explicitly the empty string (and no
part: `partNumber = 0`). -/
def demoSurChapterX : Models.Chapter :=
  ⟨"t", "a", 1, 0, 1, "alice", "C", "2024-01-01", "x", "loc", some "",
    none, 10, 50, 40, 2, 5, 1⟩

/-- Counterexample to C8 as stated: on the surrogate read path
(`row.outfit || undefined`), a chapter created with `outfit` explicitly
set to the empty string is read back as absent — the set value is not
returned, and absence is not kept distinct from the empty string on this
read path. -/
theorem empty_string_outfit_reads_absent :
    demoSurChapterX.outfit = some "" ∧
    (Surrogate.getChapter (Surrogate.createChapter demoSurDb2 demoSurChapterX)
        "t" "a" 1 1).map Models.Chapter.outfit = some none ∧
    (Surrogate.getChapter (Surrogate.createChapter demoSurDb2 demoSurChapterX)
        "t" "a" 1 1).map Models.Chapter.outfit ≠ some demoSurChapterX.outfit :=
  ⟨by decide, by decide, by decide⟩

/-- Claim C8 (amended): creating a chapter without `outfit`/`kink` stores
an explicit `NULL` and reads back as absent (not the empty string) in both
variants; explicitly setting either to a value and reading back returns
exactly that value on the composite read paths, where absence stays
distinct from the empty string, and for non-empty values on the surrogate
read paths, whose `|| undefined` coercion reads a stored empty string back
as absent. -/
theorem optional_chapter_fields_absence :
    (∀ (db : Composite.Db) (x : Models.Chapter),
      Composite.getChapter db x.timelineName x.arcName x.episodeNumber
          x.number = none →
        (Composite.getChapter (Composite.createChapter db x) x.timelineName
            x.arcName x.episodeNumber x.number).map Models.Chapter.outfit =
          some x.outfit ∧
        (Composite.getChapter (Composite.createChapter db x) x.timelineName
            x.arcName x.episodeNumber x.number).map Models.Chapter.kink =
          some x.kink) ∧
    (∀ (db : Surrogate.Db) (tn an : String) (en cn : Nat)
        (c : Surrogate.ChapterRow),
      db.chapters.find? (Surrogate.chPred db tn an en cn) = some c →
        ((c.outfit = none →
          (Surrogate.getChapter db tn an en cn).map Models.Chapter.outfit =
            some none) ∧
        (∀ v, c.outfit = some v → v ≠ "" →
          (Surrogate.getChapter db tn an en cn).map Models.Chapter.outfit =
            some (some v)) ∧
        (c.kink = none →
          (Surrogate.getChapter db tn an en cn).map Models.Chapter.kink =
            some none) ∧
        (∀ v, c.kink = some v → v ≠ "" →
          (Surrogate.getChapter db tn an en cn).map Models.Chapter.kink =
            some (some v)))) ∧
    (∀ (db : Surrogate.Db) (x : Models.Chapter) (e : Surrogate.EpisodeRow),
      Surrogate.findEpisode db x.timelineName x.arcName x.episodeNumber =
          some e →
        x.partNumber = 0 →
        (Surrogate.createChapter db x).chapters =
          db.chapters ++
            [Surrogate.chapterRowWith (Surrogate.nextChapterId db) e.id
              none x]) := by
  refine ⟨?_, ?_, ?_⟩
  · intro db x hfree
    have h := Composite.create_get_chapter_roundtrip db x hfree
    rw [h]
    exact ⟨rfl, rfl⟩
  · intro db tn an en cn c hfind
    unfold Surrogate.getChapter
    rw [hfind]
    refine ⟨?_, ?_, ?_, ?_⟩
    · intro ho
      simp [Surrogate.chapterToApi, jsOrUndef, ho]
    · intro v hv hne
      simp [Surrogate.chapterToApi, jsOrUndef, hv, hne]
    · intro hk
      simp [Surrogate.chapterToApi, jsOrUndef, hk]
    · intro v hv hne
      simp [Surrogate.chapterToApi, jsOrUndef, hv, hne]
  · intro db x e hep hpn
    unfold Surrogate.createChapter
    rw [hep]
    simp [hpn]

/-- A chapter input with `outfit` absent and `kink` the empty string. -/
def demoChapterY : Models.Chapter :=
  ⟨"t", "a", 1, 1, 3, "carol", "C3", "2024-01-03", "e3", "loc3", none,
    some "", 7, 30, 26, 2, 3, 1⟩

/-- A stored surrogate chapter with `outfit` `NULL` and `kink` `'k'`. -/
def demoSurChapterRow : Surrogate.ChapterRow :=
  ⟨1, 1, none, 1, "alice", "C", "2024-01-01", "x", "loc", none, some "k",
    10, 50, 40, 2, 5, 1⟩

/-- A surrogate-variant store holding `demoSurChapterRow` under episode 1. -/
def demoSurDb3 : Surrogate.Db :=
  ⟨[⟨1, "t", none⟩], [⟨1, 1, "a", 1, none⟩], [⟨1, 1, 1, "s", "E", none⟩],
    [], [demoSurChapterRow]⟩

/-- Witness for C8: on the composite path an absent `outfit` reads back
absent while an empty-string `kink` reads back as the empty string; on the
surrogate path a stored `NULL` `outfit` reads back absent and a stored
non-empty `kink` reads back exactly. -/
theorem optional_chapter_fields_absence_witness :
    (Composite.getChapter demoCompDb "t" "a" 1 3 = none ∧
      (Composite.getChapter (Composite.createChapter demoCompDb demoChapterY)
          "t" "a" 1 3).map Models.Chapter.outfit = some none ∧
      (Composite.getChapter (Composite.createChapter demoCompDb demoChapterY)
          "t" "a" 1 3).map Models.Chapter.kink = some (some "")) ∧
    (demoSurDb3.chapters.find? (Surrogate.chPred demoSurDb3 "t" "a" 1 1) =
        some demoSurChapterRow ∧
      (Surrogate.getChapter demoSurDb3 "t" "a" 1 1).map Models.Chapter.outfit =
        some none ∧
      (Surrogate.getChapter demoSurDb3 "t" "a" 1 1).map Models.Chapter.kink =
        some (some "k")) :=
  ⟨⟨rfl,
      (optional_chapter_fields_absence.1 demoCompDb demoChapterY rfl).1,
      (optional_chapter_fields_absence.1 demoCompDb demoChapterY rfl).2⟩,
    ⟨rfl,
      (optional_chapter_fields_absence.2.1 demoSurDb3 "t" "a" 1 1
          demoSurChapterRow rfl).1 rfl,
      (optional_chapter_fields_absence.2.1 demoSurDb3 "t" "a" 1 1
          demoSurChapterRow rfl).2.2.2 "k" rfl (by decide)⟩⟩

/-- An empty composite-variant store. -/
def emptyCompDb : Composite.Db := ⟨[], [], [], [], []⟩

/-- Claim C9: every listing operation returns its rows sorted ascending by
the ordering column — `number` for the composite `getArcs`, `getEpisodes`,
`getParts` and `getChapters`, and the arc ordering column (named `order`)
for the keyed-variant `getArcs` — and, in particular, arcs inserted out of
numeric order (`number = 2` then `number = 1`) come back sorted ascending
by `number`. -/
theorem listings_sorted_by_number :
    (∀ (db : Composite.Db) (tn : String),
      ((Composite.getArcs db tn).map Models.Arc.number).Pairwise (· ≤ ·)) ∧
    (∀ (db : Composite.Db) (tn an : String),
      ((Composite.getEpisodes db tn an).map Models.Episode.number).Pairwise
        (· ≤ ·)) ∧
    (∀ (db : Composite.Db) (tn an : String) (en : Nat),
      ((Composite.getParts db tn an en).map Models.Part.number).Pairwise
        (· ≤ ·)) ∧
    (∀ (db : Composite.Db) (tn an : String) (en : Nat) (pn : Option Nat),
      ((Composite.getChapters db tn an en pn).map
        Models.Chapter.number).Pairwise (· ≤ ·)) ∧
    (∀ (db : Keyed.Db) (tid : Nat),
      ((Keyed.getArcs db tid).map Keyed.ArcRow.order).Pairwise (· ≤ ·)) ∧
    Composite.getArcs
        (Composite.createArc
          (Composite.createArc emptyCompDb ⟨"t", "arc-2", 2, "Second"⟩)
          ⟨"t", "arc-1", 1, "First"⟩) "t" =
      [⟨"t", "arc-1", 1, "First"⟩, ⟨"t", "arc-2", 2, "Second"⟩] := by
  refine ⟨?_, ?_, ?_, ?_, ?_, ?_⟩
  · intro db tn
    unfold Composite.getArcs
    rw [List.map_map]
    exact List.pairwise_map.mpr (sorted_sortByKey Composite.ArcRow.number _)
  · intro db tn an
    unfold Composite.getEpisodes
    rw [List.map_map]
    exact List.pairwise_map.mpr (sorted_sortByKey Composite.EpisodeRow.number _)
  · intro db tn an en
    unfold Composite.getParts
    rw [List.map_map]
    exact List.pairwise_map.mpr (sorted_sortByKey Composite.PartRow.number _)
  · intro db tn an en pn
    unfold Composite.getChapters
    rw [List.map_map]
    exact List.pairwise_map.mpr (sorted_sortByKey Composite.ChapterRow.number _)
  · intro db tid
    unfold Keyed.getArcs
    exact List.pairwise_map.mpr (sorted_sortByKey Keyed.ArcRow.order _)
  · decide

/-- Claim C10: in the surrogate variant, a stored chapter whose `part_id`
is `NULL` is returned by `getChapter` with `partNumber = 0` (the `|| 0`
coercion of the left-joined `part.number`); a chapter under an actual part
numbered `0` is also returned with `partNumber = 0`, so the two are
indistinguishable; and `getChapters` likewise lists the part-less chapter
with `partNumber = 0`. -/
theorem partless_chapter_reads_zero :
    (∀ (db : Surrogate.Db) (tn an : String) (en cn : Nat)
        (c : Surrogate.ChapterRow),
      db.chapters.find? (Surrogate.chPred db tn an en cn) = some c →
        c.part_id = none →
        ∃ rec, Surrogate.getChapter db tn an en cn = some rec ∧
          rec.partNumber = 0 ∧ rec.number = c.number) ∧
    (∀ (db : Surrogate.Db) (tn an : String) (en cn : Nat)
        (c : Surrogate.ChapterRow) (pid : Nat) (p : Surrogate.PartRow),
      db.chapters.find? (Surrogate.chPred db tn an en cn) = some c →
        c.part_id = some pid →
        db.parts.find? (fun r => r.id == pid) = some p →
        p.number = 0 →
        ∃ rec, Surrogate.getChapter db tn an en cn = some rec ∧
          rec.partNumber = 0) ∧
    (∀ (db : Surrogate.Db) (tn an : String) (en : Nat)
        (c : Surrogate.ChapterRow),
      c ∈ db.chapters →
        Surrogate.episodeMatches db tn an en c.episode_id = true →
        c.part_id = none →
        ∃ rec ∈ Surrogate.getChapters db tn an en none,
          rec.number = c.number ∧ rec.partNumber = 0) := by
  refine ⟨?_, ?_, ?_⟩
  · intro db tn an en cn c hfind hpid
    refine ⟨Surrogate.chapterToApi db tn an en c, ?_, ?_, rfl⟩
    · unfold Surrogate.getChapter
      rw [hfind]
      rfl
    · simp [Surrogate.chapterToApi, Surrogate.joinedPartNumber, hpid, jsOrZero]
  · intro db tn an en cn c pid p hfind hpid hpart hzero
    refine ⟨Surrogate.chapterToApi db tn an en c, ?_, ?_⟩
    · unfold Surrogate.getChapter
      rw [hfind]
      rfl
    · simp [Surrogate.chapterToApi, Surrogate.joinedPartNumber, hpid, hpart,
        hzero, jsOrZero]
  · intro db tn an en c hc hmatch hpid
    refine ⟨Surrogate.chapterToApi db tn an en c, ?_, rfl, ?_⟩
    · unfold Surrogate.getChapters
      exact List.mem_map_of_mem _
        ((mem_sortByKey Surrogate.ChapterRow.number c _).mpr
          (List.mem_filter.mpr ⟨hc, by simp [hmatch]⟩))
    · simp [Surrogate.chapterToApi, Surrogate.joinedPartNumber, hpid, jsOrZero]

/-- Witness for C10 at the concrete store whose single chapter has a
`NULL` `part_id`. -/
theorem partless_chapter_reads_zero_witness :
    (demoSurDb3.chapters.find? (Surrogate.chPred demoSurDb3 "t" "a" 1 1) =
        some demoSurChapterRow ∧
      demoSurChapterRow.part_id = none) ∧
    (∃ rec, Surrogate.getChapter demoSurDb3 "t" "a" 1 1 = some rec ∧
      rec.partNumber = 0 ∧ rec.number = demoSurChapterRow.number) :=
  ⟨⟨rfl, rfl⟩,
    partless_chapter_reads_zero.1 demoSurDb3 "t" "a" 1 1 demoSurChapterRow
      rfl rfl⟩
